import Mathlib

/-!
# yuzuwatch-x

A verification development for `main.go`: a one-shot pipeline that resolves the URL of the
latest camera image, downloads it to a scratch file, uploads it as media and publishes a
status post that refers to it.

The program is embedded shallowly.  Go `string` and `[]byte` values are byte lists.  Every call
that leaves the process (HTTP, file system, clock, the tweet client) is answered by an
environment `Env`, and the calls made are recorded, in order, in a trace of `Event`s.  A Go
function returning `(string, error)` becomes a function returning a pair whose second component
is `none` for a `nil` error.  `log.Fatal` is `os.Exit(1)` after printing: it ends the run at once
and deferred calls are not run.  Log output and the closing of response bodies do not influence
control flow and are left out.

Two library behaviours decide what the program computes and are part of the embedding.
`json.Unmarshal` is split in two: the reading of a text into a JSON value and the case folding
of object names are answers of the environment, while the decoding of that value into the
one-field struct of `uploadMedia` is defined here.  `float64` arithmetic, which
`Duration.Hours` and the division by 24 use, is defined on the rational numbers that the
values denote, each operation being rounded to 53 significant bits.
-/

namespace YuzuWatch

/-! ## Strings and bytes -/

/-- Byte sequences: the values of Go `string` and `[]byte`. -/
abbrev Bytes := List UInt8

/-- Bytes of an ASCII string literal. -/
def ascii (s : String) : Bytes := s.toList.map (fun c => c.toNat.toUInt8)

/-- Go `strings.HasSuffix`:
`len(s) >= len(suffix) && s[len(s)-len(suffix):] == suffix`. -/
def HasSuffix (s suffix : Bytes) : Bool :=
  decide (suffix.length ≤ s.length) && (s.drop (s.length - suffix.length) == suffix)

/-! ## Errors, events, environment -/

/-- Go `error` values that occur in the program. -/
inductive Error where
  /-- an error value handed back by a library call (net/http, os, io, json syntax, twitter) -/
  | lib (msg : Bytes)
  /-- a `*json.UnmarshalTypeError`: a JSON value of the named kind met a Go value it does not fit -/
  | unmarshalType (value : Bytes)
  /-- a plain message: `log.Fatal("...")` -/
  | text (msg : Bytes)
  /-- an error made by `fmt.Errorf(format, args...)` without `%w` -/
  | errorf (format : Bytes) (args : List Bytes)
  /-- an error made by `fmt.Errorf(format, args..., err)` whose last verb is `%w` -/
  | wrapf (format : Bytes) (args : List Bytes) (err : Error)
  deriving DecidableEq

/-- An HTTP response as the program uses it: the status code and the outcome of
`io.ReadAll(resp.Body)`. -/
structure Response where
  statusCode : Int
  body : Except Error Bytes

/-- OAuth1 credentials: `oauth1.NewConfig(consumerKey, consumerSecret)` and
`oauth1.NewToken(accessToken, accessSecret)`. -/
structure Creds where
  consumerKey : Bytes
  consumerSecret : Bytes
  accessToken : Bytes
  accessSecret : Bytes
  deriving DecidableEq

/-- One file part of a multipart form, as made by `w.CreateFormFile(fieldname, filename)` followed
by copying `content` into the part. -/
structure FormFile where
  fieldname : Bytes
  filename : Bytes
  content : Bytes
  deriving DecidableEq

/-- Calls that leave the process, as recorded in the trace of a run. -/
inductive Event where
  /-- an HTTP GET: `http.Get(url)` -/
  | httpGet (url : Bytes)
  /-- a file write: `os.WriteFile(path, data, 0644)` -/
  | writeFile (path : Bytes) (data : Bytes)
  /-- a file opened for reading: `os.Open(path)` -/
  | openFile (path : Bytes)
  /-- a multipart POST through the OAuth1 client: `httpClient.Post(url, w.FormDataContentType(), body)` -/
  | postMultipart (creds : Creds) (url : Bytes) (parts : List FormFile)
  /-- the tweet creation request: `client.CreateTweet(ctx, CreateTweetRequest{Text, Media{IDs}})` -/
  | createTweet (creds : Creds) (text : Bytes) (mediaIDs : List Bytes)
  /-- a file removal: `os.Remove(path)` -/
  | remove (path : Bytes)
  deriving DecidableEq

/-- JSON values as read from a text; the members of an object are kept in the order of the text. -/
inductive JSON where
  | null
  | bool (b : Bool)
  | number (literal : Bytes)
  | string (s : Bytes)
  | array (elems : List JSON)
  | object (members : List (Bytes × JSON))

/-- Result of `client.CreateTweet` when its error is `nil`: the pointer fields `Tweet` and
`RateLimit` of `*twitter.CreateTweetResponse` (`none` is a nil pointer), reduced to what the
program reads from them. -/
structure CreateTweetResponse where
  tweetID : Option Bytes
  rateLimit : Option (Int × Int)

/-- File system contents: path to file contents. -/
abbrev FS := Bytes → Option Bytes

/-- Replace what is stored at one path. -/
def FS.set (fs : FS) (path : Bytes) (v : Option Bytes) : FS :=
  fun p => if p = path then v else fs p

/-- Everything outside the program text: the file system at the start, the answers of the
network, of the file system and of the clock, and the library behaviour that is not fixed here. -/
structure Env where
  /-- files present when the run starts -/
  fs : FS
  /-- answer of `http.Get(url)` to the GET request number `n` of the run (from 0) -/
  httpGet : Nat → Bytes → Except Error Response
  /-- failure of `os.WriteFile(path, data, 0644)`, with what it leaves at the path; `none`: success -/
  writeFile : Bytes → Bytes → Option (Error × Option Bytes)
  /-- failure of `w.CreateFormFile` -/
  createFormFile : Option Error
  /-- failure of `os.Open(path)` on a file that exists -/
  openFile : Bytes → Option Error
  /-- failure of `io.Copy(part, file)` -/
  copy : Option Error
  /-- failure of `w.Close()` -/
  closeForm : Option Error
  /-- answer to the multipart POST -/
  postMultipart : Creds → Bytes → List FormFile → Except Error Response
  /-- reading of a JSON text by `encoding/json`: the value, or the syntax error -/
  parseJSON : Bytes → Except Error JSON
  /-- case folding of object names by `encoding/json` (`foldName`) -/
  foldName : Bytes → Bytes
  /-- wall clock at the call of `time.Since`, in nanoseconds since 1970-01-01 00:00:00 UTC -/
  now : Int
  /-- answer of `client.CreateTweet` -/
  createTweet : Creds → Bytes → List Bytes → Except Error CreateTweetResponse
  /-- failure of `os.Remove(path)` on a file that exists -/
  remove : Bytes → Option Error

/-! ## Time -/

/-- Days from 1970-01-01 to the given day of the proleptic Gregorian calendar. -/
def daysFromCivil (year month day : Int) : Int :=
  let y := if month ≤ 2 then year - 1 else year
  let era := y / 400
  let yoe := y - era * 400
  let mp := if 2 < month then month - 3 else month + 9
  let doy := (153 * mp + 2) / 5 + day - 1
  let doe := yoe * 365 + yoe / 4 - yoe / 100 + doy
  era * 146097 + doe - 719468

/-- Go `time.Duration` unit: one hour in nanoseconds (`Hour = 60 * Minute`). -/
def Hour : Int := 60 * (60 * (1000 * (1000 * (1000 * 1))))

/-- The instant `time.Date(2025, 4, 11, 0, 0, 0, 0, time.UTC)`, in nanoseconds since
1970-01-01 00:00:00 UTC. -/
def epoch : Int := daysFromCivil 2025 4 11 * 24 * Hour

/-- Largest `time.Duration`: `1<<63 - 1` nanoseconds. -/
def maxDuration : Int := 2 ^ 63 - 1

/-- Smallest `time.Duration`: `-1 << 63` nanoseconds. -/
def minDuration : Int := -(2 ^ 63)

/-- Go `Time.Sub`: the difference in nanoseconds, saturated to the range of `Duration`. -/
def Sub (t u : Int) : Int :=
  let d := t - u
  if maxDuration < d then maxDuration else if d < minDuration then minDuration else d

/-- Go `time.Since(t)` for a `t` without monotonic reading: `time.Now().Sub(t)`. -/
def Since (env : Env) (t : Int) : Int := Sub env.now t

/-! ## float64 arithmetic

A finite `float64` is represented by the rational number it denotes.  Each operation is the exact
operation followed by rounding to the nearest value with a 53 bit significand, ties to even
(IEEE 754 binary64; the exponent range is not limited, which is immaterial for magnitudes
between `2^-1022` and `2^1024`). -/

/-- Round to the nearest integer, ties to the even one. -/
def roundHalfEven (x : ℚ) : ℤ :=
  let f := ⌊x⌋
  if x - f < 1 / 2 then f
  else if 1 / 2 < x - f then f + 1
  else if f % 2 = 0 then f else f + 1

/-- Exponent of the unit in the last place of the binary64 values around `x`:
`2^(e+52) ≤ |x| < 2^(e+53)`. -/
def ulpExp (x : ℚ) : ℤ := Int.log 2 |x| - 52

/-- Rounding of a rational to binary64. -/
def f64 (x : ℚ) : ℚ :=
  if x = 0 then 0 else roundHalfEven (x / 2 ^ ulpExp x) * 2 ^ ulpExp x

/-- Go `Duration.Hours`:
`hour := d / Hour; nsec := d % Hour; return float64(hour) + float64(nsec)/(60*60*1e9)`. -/
def Hours (d : Int) : ℚ :=
  let hour := d.tdiv Hour
  let nsec := d.tmod Hour
  f64 (f64 hour + f64 (f64 nsec / f64 (60 * 60 * 1000000000)))

/-- Go conversion `int(x)` of a `float64`: the fraction is discarded (truncation towards zero). -/
def toInt (x : ℚ) : Int := if 0 ≤ x then ⌊x⌋ else ⌈x⌉

/-- The number in the status: `int(time.Since(epoch).Hours()/24)+1`. -/
def dayNumber (env : Env) : Int := toInt (f64 (Hours (Since env epoch) / f64 24)) + 1

/-- The status text: `fmt.Sprintf("DAY %d", int(time.Since(epoch).Hours()/24)+1)`. -/
def statusText (env : Env) : Bytes := ascii ("DAY " ++ toString (dayNumber env))

/-! ## The four stages -/

/-- The constant `mediaURL`. -/
def mediaURL : Bytes := ascii "https://upload.twitter.com/1.1/media/upload.json"

/-- URL of the text file naming the latest image, as built in `latestImageURL`. -/
def latestTxtURL (imageHost groupName cameraName : Bytes) : Bytes :=
  ascii "https://" ++ imageHost ++ ascii "/still/" ++ groupName ++ ascii "/" ++ cameraName
    ++ ascii "/latest.txt"

/-- Go `latestImageURL(imageHost, groupName, cameraName)`; `get` answers `http.Get`.
Result: the events, and the returned pair. -/
def latestImageURL (get : Bytes → Except Error Response) (imageHost groupName cameraName : Bytes) :
    List Event × Bytes × Option Error :=
  let url := latestTxtURL imageHost groupName cameraName
  ([Event.httpGet url],
    match get url with
    | .error err => ([], some (.wrapf (ascii "failed to get latest.txt: %w") [] err))
    | .ok resp =>
      match resp.body with
      | .error err => ([], some (.wrapf (ascii "failed to read latest.txt response: %w") [] err))
      | .ok body =>
        if !HasSuffix body (ascii ".jpg") then
          ([], some (.errorf (ascii "unexpected latest.txt response: %s") [body]))
        else
          (ascii "https://" ++ imageHost ++ ascii "/" ++ body, none))

/-- Go `download(url, filePath)`; `get` answers `http.Get`.
Result: the events, the file system afterwards, and the returned error. -/
def download (env : Env) (get : Bytes → Except Error Response) (url filePath : Bytes) (fs : FS) :
    List Event × FS × Option Error :=
  match get url with
  | .error err => ([Event.httpGet url], fs, some (.wrapf (ascii "failed to download: %w") [] err))
  | .ok resp =>
    match resp.body with
    | .error err =>
      ([Event.httpGet url], fs, some (.wrapf (ascii "failed to read image response: %w") [] err))
    | .ok body =>
      match env.writeFile filePath body with
      | some (err, left) =>
        ([Event.httpGet url, Event.writeFile filePath body], fs.set filePath left, some err)
      | none =>
        ([Event.httpGet url, Event.writeFile filePath body], fs.set filePath (some body), none)

/-- Kind of a JSON value as `encoding/json` names it in a type error. -/
def JSON.kind : JSON → Bytes
  | .null => ascii "null"
  | .bool _ => ascii "bool"
  | .number _ => ascii "number"
  | .string _ => ascii "string"
  | .array _ => ascii "array"
  | .object _ => ascii "object"

/-- Whether `encoding/json` takes the object name `key` for the struct field tagged
`json:"media_id_string"`: an exact match, or else a match after case folding. -/
def nameMatches (env : Env) (key : Bytes) : Bool :=
  key == ascii "media_id_string" || env.foldName key == env.foldName (ascii "media_id_string")

/-- One object member met while decoding into
`struct { MediaIDString string "json:\"media_id_string\"" }`: the state is the field and the
first type error saved so far.  A string sets the field, `null` leaves it, any other value is a
type error; a member with another name is skipped. -/
def decodeMember (env : Env) (st : Bytes × Option Error) (m : Bytes × JSON) : Bytes × Option Error :=
  if nameMatches env m.1 then
    match m.2 with
    | .string s => (s, st.2)
    | .null => st
    | v => (st.1, st.2 <|> some (.unmarshalType v.kind))
  else st

/-- Go `json.Unmarshal(body, &mediaUploadResponse)` on the zero struct: the value of
`MediaIDString` afterwards, and the error.  The text is checked first; an object is decoded member
by member in text order; `null` is accepted and changes nothing; any other value is a type
error. -/
def Unmarshal (env : Env) (body : Bytes) : Bytes × Option Error :=
  match env.parseJSON body with
  | .error err => ([], some err)
  | .ok (.object members) => members.foldl (decodeMember env) ([], none)
  | .ok .null => ([], none)
  | .ok v => ([], some (.unmarshalType v.kind))

/-- Go `uploadMedia(filePath, httpClient)`, `httpClient` being the OAuth1 client of `creds`.
Result: the events, and the returned pair. -/
def uploadMedia (env : Env) (creds : Creds) (filePath : Bytes) (fs : FS) :
    List Event × Bytes × Option Error :=
  match env.createFormFile with
  | some err => ([], [], some (.wrapf (ascii "failed to create form: %w") [] err))
  | none =>
    let opened : Except Error Bytes :=
      match fs filePath with
      | none => .error (.lib (ascii "open " ++ filePath ++ ascii ": no such file or directory"))
      | some content =>
        match env.openFile filePath with
        | some err => .error err
        | none => .ok content
    match opened with
    | .error err =>
      ([Event.openFile filePath], [], some (.wrapf (ascii "failed to open %s :%w") [filePath] err))
    | .ok content =>
      match env.copy with
      | some err =>
        ([Event.openFile filePath], [], some (.wrapf (ascii "failed to copy %s: %w") [filePath] err))
      | none =>
        match env.closeForm with
        | some err =>
          ([Event.openFile filePath], [], some (.wrapf (ascii "failed to close form: %w") [] err))
        | none =>
          let parts := [FormFile.mk (ascii "media") filePath content]
          let events := [Event.openFile filePath, Event.postMultipart creds mediaURL parts]
          match env.postMultipart creds mediaURL parts with
          | .error err => (events, [], some (.wrapf (ascii "failed to upload media: %w") [] err))
          | .ok resp =>
            match resp.body with
            | .error err =>
              (events, [], some (.wrapf (ascii "failed to read media upload response: %w") [] err))
            | .ok body =>
              match Unmarshal env body with
              | (_, some err) =>
                (events, [], some (.wrapf (ascii "failed to unmarshal media upload response: %w") [] err))
              | (mediaIDString, none) => (events, mediaIDString, none)

/-- How a call of `post` ends. -/
inductive PostResult where
  /-- it returns the given error (`none`: `nil`) -/
  | returned (err : Option Error)
  /-- it dereferences a nil pointer while logging the response -/
  | panicked
  deriving DecidableEq

/-- Go `post(ctx, config, token, status, mediaID)`: the client signs its requests with the
OAuth1 credentials (its `Authorizer`, a `dummyAuthorizer`, adds nothing).  After a nil error
the response is logged through the pointers `resp.Tweet` and `resp.RateLimit`.
Result: the events, and how the call ends. -/
def post (env : Env) (creds : Creds) (status mediaID : Bytes) : List Event × PostResult :=
  ([Event.createTweet creds status [mediaID]],
    match env.createTweet creds status [mediaID] with
    | .error err => .returned (some (.wrapf (ascii "failed to post: %w\n") [] err))
    | .ok resp =>
      match resp.tweetID, resp.rateLimit with
      | some _, some _ => .returned none
      | _, _ => .panicked)

/-! ## main -/

/-- The command line after `flag.Parse`: for each flag the value given, if the flag was given. -/
structure Args where
  imageHost : Option Bytes
  groupName : Option Bytes
  cameraName : Option Bytes
  consumerKey : Option Bytes
  consumerSecret : Option Bytes
  accessToken : Option Bytes
  accessSecret : Option Bytes

/-- How a run ends. -/
inductive Exit where
  /-- `main` returns: exit status 0 -/
  | success
  /-- `log.Fatal(v)`: the message is printed and `os.Exit(1)` ends the process; deferred calls are
  not run -/
  | fatal (v : Error)
  /-- a run-time panic: deferred calls are run, then the process ends with a non-zero status -/
  | panicked
  deriving DecidableEq

/-- A run ends in failure when the process ends with a non-zero exit status. -/
def Exit.failed : Exit → Bool
  | .success => false
  | .fatal _ => true
  | .panicked => true

/-- A finished run: how it ended, the calls made in order, and the file system left behind. -/
structure Run where
  exit : Exit
  trace : List Event
  fs : FS

/-- The deferred function of `main`: `os.Remove(filePath)`; a failure is only logged. -/
def deferredRemove (env : Env) (filePath : Bytes) (fs : FS) : List Event × FS :=
  match fs filePath with
  | none => ([Event.remove filePath], fs)
  | some _ =>
    match env.remove filePath with
    | some _ => ([Event.remove filePath], fs)
    | none => ([Event.remove filePath], fs.set filePath none)

/-- The values of the seven flags. -/
structure Flags where
  imageHost : Bytes
  groupName : Bytes
  cameraName : Bytes
  consumerKey : Bytes
  consumerSecret : Bytes
  accessToken : Bytes
  accessSecret : Bytes

/-- The flag definitions of `main` with their default values, applied to the command line:
`-ih` (""), `-t` ("mikan"), `-c` ("camera-a"), `-ck` (""), `-cs` (""), `-at` (""), `-as` (""). -/
def flagValues (args : Args) : Flags :=
  { imageHost := args.imageHost.getD (ascii "")
    groupName := args.groupName.getD (ascii "mikan")
    cameraName := args.cameraName.getD (ascii "camera-a")
    consumerKey := args.consumerKey.getD (ascii "")
    consumerSecret := args.consumerSecret.getD (ascii "")
    accessToken := args.accessToken.getD (ascii "")
    accessSecret := args.accessSecret.getD (ascii "") }

/-- The OAuth1 configuration and token that `main` builds from the flags. -/
def Flags.creds (f : Flags) : Creds :=
  ⟨f.consumerKey, f.consumerSecret, f.accessToken, f.accessSecret⟩

/-- The local variable `filePath` of `main`. -/
def filePath : Bytes := ascii "latest.jpg"

/-- Go `main`. -/
def main (args : Args) (env : Env) : Run :=
  let f := flagValues args
  if f.imageHost = ascii "" then
    ⟨.fatal (.text (ascii "image host is required")), [], env.fs⟩
  else if f.consumerKey = ascii "" ∨ f.consumerSecret = ascii "" ∨ f.accessToken = ascii ""
      ∨ f.accessSecret = ascii "" then
    ⟨.fatal (.text (ascii "Consumer key/secret and Access token/secret are required")), [], env.fs⟩
  else
    match latestImageURL (env.httpGet 0) f.imageHost f.groupName f.cameraName with
    | (t1, _, some err) => ⟨.fatal err, t1, env.fs⟩
    | (t1, url, none) =>
      match download env (env.httpGet 1) url filePath env.fs with
      | (t2, fs1, some err) => ⟨.fatal err, t1 ++ t2, fs1⟩
      | (t2, fs1, none) =>
        -- from here on the removal of filePath is deferred
        match uploadMedia env f.creds filePath fs1 with
        | (t3, _, some err) => ⟨.fatal err, t1 ++ t2 ++ t3, fs1⟩
        | (t3, mediaID, none) =>
          match post env f.creds (statusText env) mediaID with
          | (t4, .returned (some err)) => ⟨.fatal err, t1 ++ t2 ++ t3 ++ t4, fs1⟩
          | (t4, .returned none) =>
            let r := deferredRemove env filePath fs1
            ⟨.success, t1 ++ t2 ++ t3 ++ t4 ++ r.1, r.2⟩
          | (t4, .panicked) =>
            let r := deferredRemove env filePath fs1
            ⟨.panicked, t1 ++ t2 ++ t3 ++ t4 ++ r.1, r.2⟩

/-- The two checks at the start of `main` pass: none of the five required values is empty. -/
def Flags.complete (f : Flags) : Prop :=
  f.imageHost ≠ ascii "" ∧ f.consumerKey ≠ ascii "" ∧ f.consumerSecret ≠ ascii "" ∧
    f.accessToken ≠ ascii "" ∧ f.accessSecret ≠ ascii ""

instance (f : Flags) : Decidable f.complete := by
  unfold Flags.complete
  infer_instance

/-- Kinds of events. -/
inductive Kind where
  | httpGet
  | writeFile
  | openFile
  | postMultipart
  | createTweet
  | remove
  deriving DecidableEq

/-- The kind of an event. -/
def Event.kind : Event → Kind
  | .httpGet _ => .httpGet
  | .writeFile _ _ => .writeFile
  | .openFile _ => .openFile
  | .postMultipart _ _ _ => .postMultipart
  | .createTweet _ _ _ => .createTweet
  | .remove _ => .remove

/-- The call of `latestImageURL` in `main`. -/
def resolveStage (args : Args) (env : Env) : List Event × Bytes × Option Error :=
  latestImageURL (env.httpGet 0) (flagValues args).imageHost (flagValues args).groupName
    (flagValues args).cameraName

/-- The call of `download` in `main`: its URL is the one returned by `latestImageURL`. -/
def downloadStage (args : Args) (env : Env) : List Event × FS × Option Error :=
  download env (env.httpGet 1) (resolveStage args env).2.1 filePath env.fs

/-- The call of `uploadMedia` in `main`, on the file system left by `download`. -/
def uploadStage (args : Args) (env : Env) : List Event × Bytes × Option Error :=
  uploadMedia env (flagValues args).creds filePath (downloadStage args env).2.1

/-- The call of `post` in `main`: its media identifier is the one returned by `uploadMedia`. -/
def postStage (args : Args) (env : Env) : List Event × PostResult :=
  post env (flagValues args).creds (statusText env) (uploadStage args env).2.1

/-- The deferred removal of `main`, on the file system left by `download`. -/
def cleanup (args : Args) (env : Env) : List Event × FS :=
  deferredRemove env filePath (downloadStage args env).2.1

/-- The request of `uploadMedia` is sent and answered: the form is built, the file is opened
and copied, and the POST comes back with the given status and a body that is read in full. -/
def uploadAnswered (env : Env) (creds : Creds) (path : Bytes) (fs : FS) (status : Int)
    (body : Bytes) : Prop :=
  env.createFormFile = none ∧ ∃ content, fs path = some content ∧ env.openFile path = none ∧
    env.copy = none ∧ env.closeForm = none ∧
    env.postMultipart creds mediaURL [⟨ascii "media", path, content⟩] = .ok ⟨status, .ok body⟩

/-- The members of an object that carry exactly the given name. -/
def membersNamed (name : Bytes) (members : List (Bytes × JSON)) : List (Bytes × JSON) :=
  members.filter (fun m => m.1 == name)

/-! ## Sample environments -/

/-- Go `foldName` of `encoding/json` on names made of ASCII bytes: `a`..`z` become `A`..`Z`
(bytes from 0x80 on, which Go folds rune by rune, are left as they are). -/
def foldASCII (name : Bytes) : Bytes :=
  name.map (fun c => if 97 ≤ c ∧ c ≤ 122 then c - 32 else c)

/-- Sample response text: an upload answer with an identifier. -/
def textWithID : Bytes := ascii "\x7b\"media_id_string\":\"1\"\x7d"

/-- Sample response text: two members whose names differ in case only. -/
def textTwoCases : Bytes :=
  ascii "\x7b\"media_id_string\":\"a\",\"MEDIA_ID_STRING\":\"b\"\x7d"

/-- Sample response text: one member, named in upper case. -/
def textUpperCase : Bytes := ascii "\x7b\"MEDIA_ID_STRING\":\"x\"\x7d"

/-- Sample response text: an API error object. -/
def textAPIError : Bytes :=
  ascii "\x7b\"errors\":[\x7b\"code\":32,\"message\":\"Could not authenticate you.\"\x7d]\x7d"

/-- Sample response text that is not JSON. -/
def textHTML : Bytes := ascii "<html>"

/-- The reading of the sample texts by `encoding/json`.  Every other text is answered like
`textHTML`; this reader is only used on the samples. -/
def readSample (text : Bytes) : Except Error JSON :=
  if text = textWithID then
    .ok (.object [(ascii "media_id_string", .string (ascii "1"))])
  else if text = textTwoCases then
    .ok (.object [(ascii "media_id_string", .string (ascii "a")),
      (ascii "MEDIA_ID_STRING", .string (ascii "b"))])
  else if text = textUpperCase then
    .ok (.object [(ascii "MEDIA_ID_STRING", .string (ascii "x"))])
  else if text = textAPIError then
    .ok (.object [(ascii "errors", .array [.object [(ascii "code", .number (ascii "32")),
      (ascii "message", .string (ascii "Could not authenticate you."))]])])
  else
    .error (.lib (ascii "invalid character \'<\' looking for beginning of value"))

/-- A command line giving the image host and the four credentials. -/
def sampleArgs : Args :=
  { imageHost := some (ascii "cam.example")
    groupName := none
    cameraName := none
    consumerKey := some (ascii "ck")
    consumerSecret := some (ascii "cs")
    accessToken := some (ascii "at")
    accessSecret := some (ascii "as") }

/-- The credentials of `sampleArgs`. -/
def sampleCreds : Creds := ⟨ascii "ck", ascii "cs", ascii "at", ascii "as"⟩

/-- An environment in which every call succeeds: latest.txt names "a.jpg", the image has four
bytes, the upload answers `textWithID`, and the clock stands at noon of the 573rd day. -/
def sampleEnv : Env :=
  { fs := fun _ => none
    httpGet := fun n _ =>
      if n = 0 then .ok ⟨200, .ok (ascii "a.jpg")⟩ else .ok ⟨200, .ok [0xFF, 0xD8, 0xFF, 0xD9]⟩
    writeFile := fun _ _ => none
    createFormFile := none
    openFile := fun _ => none
    copy := none
    closeForm := none
    postMultipart := fun _ _ _ => .ok ⟨200, .ok textWithID⟩
    parseJSON := readSample
    foldName := foldASCII
    now := epoch + 572 * 24 * Hour + 12 * Hour
    createTweet := fun _ _ _ => .ok ⟨some (ascii "1900000000000000000"), some (16, 17)⟩
    remove := fun _ => none }

/-- As `sampleEnv`, but the upload request fails in transport. -/
def uploadDownEnv : Env :=
  { sampleEnv with postMultipart := fun _ _ _ => .error (.lib (ascii "connection refused")) }

/-- As `sampleEnv`, but the upload endpoint answers with the given status and text. -/
def answerEnv (status : Int) (text : Bytes) : Env :=
  { sampleEnv with postMultipart := fun _ _ _ => .ok ⟨status, .ok text⟩ }

/-- A file system holding the scratch file only. -/
def scratchFS : FS := FS.set (fun _ => none) filePath (some [0xFF, 0xD8, 0xFF, 0xD9])

/-- As `sampleEnv`, but the clock stands one nanosecond before the end of the 200th day. -/
def boundaryEnv : Env :=
  { sampleEnv with now := epoch + 200 * (24 * Hour) - 1 }

/-! ## Theorems -/

theorem hasSuffix_iff (s suffix : Bytes) : HasSuffix s suffix = true ↔ suffix <:+ s := by
  unfold HasSuffix
  constructor
  · intro h
    simp only [Bool.and_eq_true, decide_eq_true_eq, beq_iff_eq] at h
    rw [← h.2]
    exact List.drop_suffix _ _
  · rintro ⟨p, rfl⟩
    simp

/-- C1: after a successful fetch and read of latest.txt with body `b`, `latestImageURL` returns
`"https://" + imageHost + "/" + b` with a nil error exactly when `b` ends with ".jpg", and
returns the empty URL with an error whenever `b` does not end with ".jpg". -/
theorem latestImageURL_validates_suffix (get : Bytes → Except Error Response)
    (imageHost groupName cameraName b : Bytes) (status : Int)
    (hget : get (latestTxtURL imageHost groupName cameraName) = .ok ⟨status, .ok b⟩) :
    ((latestImageURL get imageHost groupName cameraName).2
        = (ascii "https://" ++ imageHost ++ ascii "/" ++ b, none) ↔ ascii ".jpg" <:+ b) ∧
    (¬ ascii ".jpg" <:+ b →
      ∃ err, (latestImageURL get imageHost groupName cameraName).2 = ([], some err)) := by
  by_cases hs : ascii ".jpg" <:+ b
  · have h := (hasSuffix_iff b (ascii ".jpg")).2 hs
    simp [latestImageURL, hget, h, hs]
  · have h : HasSuffix b (ascii ".jpg") = false := by
      rw [← Bool.not_eq_true, hasSuffix_iff]; exact hs
    simp [latestImageURL, hget, h, hs]

/-- C1, at concrete inputs: the bodies "x.jpg\n" and "" are refused, the body "x.jpg" is
accepted. -/
theorem latestImageURL_validates_suffix_witness :
    (∃ err, (latestImageURL (fun _ => .ok ⟨200, .ok (ascii "x.jpg\n")⟩)
        (ascii "h") (ascii "g") (ascii "c")).2 = ([], some err)) ∧
    (∃ err, (latestImageURL (fun _ => .ok ⟨404, .ok (ascii "")⟩)
        (ascii "h") (ascii "g") (ascii "c")).2 = ([], some err)) ∧
    (latestImageURL (fun _ => .ok ⟨200, .ok (ascii "x.jpg")⟩)
        (ascii "h") (ascii "g") (ascii "c")).2 = (ascii "https://h/x.jpg", none) :=
  ⟨(latestImageURL_validates_suffix (fun _ => .ok ⟨200, .ok (ascii "x.jpg\n")⟩)
      (ascii "h") (ascii "g") (ascii "c") (ascii "x.jpg\n") 200 rfl).2 (by decide),
   (latestImageURL_validates_suffix (fun _ => .ok ⟨404, .ok (ascii "")⟩)
      (ascii "h") (ascii "g") (ascii "c") (ascii "") 404 rfl).2 (by decide),
   (latestImageURL_validates_suffix (fun _ => .ok ⟨200, .ok (ascii "x.jpg")⟩)
      (ascii "h") (ascii "g") (ascii "c") (ascii "x.jpg") 200 rfl).1.2 (by decide)⟩

/-- C7: whatever the answer, the one request of `latestImageURL` is a GET of
`"https://" + imageHost + "/still/" + groupName + "/" + cameraName + "/latest.txt"`, and a URL
returned with a nil error begins with `"https://" + imageHost + "/"`. -/
theorem latestImageURL_request (get : Bytes → Except Error Response)
    (imageHost groupName cameraName : Bytes) :
    (latestImageURL get imageHost groupName cameraName).1
        = [Event.httpGet (ascii "https://" ++ imageHost ++ ascii "/still/" ++ groupName
            ++ ascii "/" ++ cameraName ++ ascii "/latest.txt")] ∧
    ((latestImageURL get imageHost groupName cameraName).2.2 = none →
      (ascii "https://" ++ imageHost ++ ascii "/")
        <+: (latestImageURL get imageHost groupName cameraName).2.1) := by
  refine ⟨rfl, ?_⟩
  unfold latestImageURL
  cases hg : get (latestTxtURL imageHost groupName cameraName) with
  | error e => simp [hg]
  | ok resp =>
    cases hb : resp.body with
    | error e => simp [hg, hb]
    | ok body =>
      by_cases h : HasSuffix body (ascii ".jpg") = true
      · simp [hg, hb, h]
      · simp [hg, hb, h]

/-- C7, at a concrete input. -/
theorem latestImageURL_request_witness :
    (latestImageURL (fun _ => .ok ⟨200, .ok (ascii "2025/a.jpg")⟩)
        (ascii "cam.example") (ascii "mikan") (ascii "camera-a")).1
      = [Event.httpGet (ascii "https://cam.example/still/mikan/camera-a/latest.txt")] ∧
    (ascii "https://cam.example/") <+: ascii "https://cam.example/2025/a.jpg" :=
  ⟨(latestImageURL_request (fun _ => .ok ⟨200, .ok (ascii "2025/a.jpg")⟩)
      (ascii "cam.example") (ascii "mikan") (ascii "camera-a")).1,
   (latestImageURL_request (fun _ => .ok ⟨200, .ok (ascii "2025/a.jpg")⟩)
      (ascii "cam.example") (ascii "mikan") (ascii "camera-a")).2 rfl⟩

/-! ### The shape of a run -/

theorem main_incomplete (args : Args) (env : Env) (h : ¬ (flagValues args).complete) :
    ∃ msg, main args env = ⟨.fatal (.text msg), [], env.fs⟩ := by
  unfold Flags.complete at h
  unfold main
  by_cases h0 : (flagValues args).imageHost = ascii ""
  · exact ⟨ascii "image host is required", by simp [h0]⟩
  · by_cases h1 : (flagValues args).consumerKey = ascii "" ∨
        (flagValues args).consumerSecret = ascii "" ∨ (flagValues args).accessToken = ascii "" ∨
        (flagValues args).accessSecret = ascii ""
    · exact ⟨ascii "Consumer key/secret and Access token/secret are required",
        by simp only [h0, h1, if_true, if_false]⟩
    · exact absurd ⟨h0, by tauto⟩ h

theorem main_resolve_error (args : Args) (env : Env) (hf : (flagValues args).complete)
    {t1 : List Event} {url : Bytes} {err : Error}
    (h1 : latestImageURL (env.httpGet 0) (flagValues args).imageHost (flagValues args).groupName
      (flagValues args).cameraName = (t1, url, some err)) :
    main args env = ⟨.fatal err, t1, env.fs⟩ := by
  obtain ⟨h0, ha, hb, hc, hd⟩ := hf
  simp [main, h0, ha, hb, hc, hd, h1]

theorem main_download_error (args : Args) (env : Env) (hf : (flagValues args).complete)
    {t1 t2 : List Event} {url : Bytes} {fs1 : FS} {err : Error}
    (h1 : latestImageURL (env.httpGet 0) (flagValues args).imageHost (flagValues args).groupName
      (flagValues args).cameraName = (t1, url, none))
    (h2 : download env (env.httpGet 1) url filePath env.fs = (t2, fs1, some err)) :
    main args env = ⟨.fatal err, t1 ++ t2, fs1⟩ := by
  obtain ⟨h0, ha, hb, hc, hd⟩ := hf
  simp [main, h0, ha, hb, hc, hd, h1, h2]

theorem main_upload_error (args : Args) (env : Env) (hf : (flagValues args).complete)
    {t1 t2 t3 : List Event} {url mediaID : Bytes} {fs1 : FS} {err : Error}
    (h1 : latestImageURL (env.httpGet 0) (flagValues args).imageHost (flagValues args).groupName
      (flagValues args).cameraName = (t1, url, none))
    (h2 : download env (env.httpGet 1) url filePath env.fs = (t2, fs1, none))
    (h3 : uploadMedia env (flagValues args).creds filePath fs1 = (t3, mediaID, some err)) :
    main args env = ⟨.fatal err, t1 ++ t2 ++ t3, fs1⟩ := by
  obtain ⟨h0, ha, hb, hc, hd⟩ := hf
  simp [main, h0, ha, hb, hc, hd, h1, h2, h3]

theorem main_post_error (args : Args) (env : Env) (hf : (flagValues args).complete)
    {t1 t2 t3 t4 : List Event} {url mediaID : Bytes} {fs1 : FS} {err : Error}
    (h1 : latestImageURL (env.httpGet 0) (flagValues args).imageHost (flagValues args).groupName
      (flagValues args).cameraName = (t1, url, none))
    (h2 : download env (env.httpGet 1) url filePath env.fs = (t2, fs1, none))
    (h3 : uploadMedia env (flagValues args).creds filePath fs1 = (t3, mediaID, none))
    (h4 : post env (flagValues args).creds (statusText env) mediaID = (t4, .returned (some err))) :
    main args env = ⟨.fatal err, t1 ++ t2 ++ t3 ++ t4, fs1⟩ := by
  obtain ⟨h0, ha, hb, hc, hd⟩ := hf
  simp [main, h0, ha, hb, hc, hd, h1, h2, h3, h4]

theorem main_post_ok (args : Args) (env : Env) (hf : (flagValues args).complete)
    {t1 t2 t3 t4 : List Event} {url mediaID : Bytes} {fs1 : FS}
    (h1 : latestImageURL (env.httpGet 0) (flagValues args).imageHost (flagValues args).groupName
      (flagValues args).cameraName = (t1, url, none))
    (h2 : download env (env.httpGet 1) url filePath env.fs = (t2, fs1, none))
    (h3 : uploadMedia env (flagValues args).creds filePath fs1 = (t3, mediaID, none))
    (h4 : post env (flagValues args).creds (statusText env) mediaID = (t4, .returned none)) :
    main args env = ⟨.success, t1 ++ t2 ++ t3 ++ t4 ++ (deferredRemove env filePath fs1).1,
      (deferredRemove env filePath fs1).2⟩ := by
  obtain ⟨h0, ha, hb, hc, hd⟩ := hf
  simp [main, h0, ha, hb, hc, hd, h1, h2, h3, h4]

theorem main_post_panicked (args : Args) (env : Env) (hf : (flagValues args).complete)
    {t1 t2 t3 t4 : List Event} {url mediaID : Bytes} {fs1 : FS}
    (h1 : latestImageURL (env.httpGet 0) (flagValues args).imageHost (flagValues args).groupName
      (flagValues args).cameraName = (t1, url, none))
    (h2 : download env (env.httpGet 1) url filePath env.fs = (t2, fs1, none))
    (h3 : uploadMedia env (flagValues args).creds filePath fs1 = (t3, mediaID, none))
    (h4 : post env (flagValues args).creds (statusText env) mediaID = (t4, .panicked)) :
    main args env = ⟨.panicked, t1 ++ t2 ++ t3 ++ t4 ++ (deferredRemove env filePath fs1).1,
      (deferredRemove env filePath fs1).2⟩ := by
  obtain ⟨h0, ha, hb, hc, hd⟩ := hf
  simp [main, h0, ha, hb, hc, hd, h1, h2, h3, h4]

/-- Every run with complete flags ends in one of six ways, fixed by the first stage that does
not return a nil error. -/
theorem main_cases (args : Args) (env : Env) (hf : (flagValues args).complete) :
    (∃ err, (resolveStage args env).2.2 = some err ∧
      main args env = ⟨.fatal err, (resolveStage args env).1, env.fs⟩) ∨
    ((resolveStage args env).2.2 = none ∧ ∃ err, (downloadStage args env).2.2 = some err ∧
      main args env = ⟨.fatal err, (resolveStage args env).1 ++ (downloadStage args env).1,
        (downloadStage args env).2.1⟩) ∨
    ((resolveStage args env).2.2 = none ∧ (downloadStage args env).2.2 = none ∧
      ∃ err, (uploadStage args env).2.2 = some err ∧
      main args env = ⟨.fatal err, (resolveStage args env).1 ++ (downloadStage args env).1
        ++ (uploadStage args env).1, (downloadStage args env).2.1⟩) ∨
    ((resolveStage args env).2.2 = none ∧ (downloadStage args env).2.2 = none ∧
      (uploadStage args env).2.2 = none ∧ ∃ err, (postStage args env).2 = .returned (some err) ∧
      main args env = ⟨.fatal err, (resolveStage args env).1 ++ (downloadStage args env).1
        ++ (uploadStage args env).1 ++ (postStage args env).1, (downloadStage args env).2.1⟩) ∨
    ((resolveStage args env).2.2 = none ∧ (downloadStage args env).2.2 = none ∧
      (uploadStage args env).2.2 = none ∧ (postStage args env).2 = .returned none ∧
      main args env = ⟨.success, (resolveStage args env).1 ++ (downloadStage args env).1
        ++ (uploadStage args env).1 ++ (postStage args env).1 ++ (cleanup args env).1,
        (cleanup args env).2⟩) ∨
    ((resolveStage args env).2.2 = none ∧ (downloadStage args env).2.2 = none ∧
      (uploadStage args env).2.2 = none ∧ (postStage args env).2 = .panicked ∧
      main args env = ⟨.panicked, (resolveStage args env).1 ++ (downloadStage args env).1
        ++ (uploadStage args env).1 ++ (postStage args env).1 ++ (cleanup args env).1,
        (cleanup args env).2⟩) := by
  rcases h1 : resolveStage args env with ⟨t1, url, e1⟩
  have h1a := h1
  unfold resolveStage at h1a
  cases e1 with
  | some err => exact Or.inl ⟨err, rfl, main_resolve_error args env hf h1a⟩
  | none =>
    right
    rcases h2 : downloadStage args env with ⟨t2, fs1, e2⟩
    have h2a := h2
    simp only [downloadStage, h1] at h2a
    cases e2 with
    | some err => exact Or.inl ⟨rfl, err, rfl, main_download_error args env hf h1a h2a⟩
    | none =>
      right
      rcases h3 : uploadStage args env with ⟨t3, mediaID, e3⟩
      have h3a := h3
      simp only [uploadStage, h2] at h3a
      cases e3 with
      | some err => exact Or.inl ⟨rfl, rfl, err, rfl, main_upload_error args env hf h1a h2a h3a⟩
      | none =>
        right
        rcases h4 : postStage args env with ⟨t4, r4⟩
        have h4a := h4
        simp only [postStage, h3] at h4a
        have hc : cleanup args env = deferredRemove env filePath fs1 := by
          simp only [cleanup, h2]
        rw [hc]
        cases r4 with
        | returned e4 =>
          cases e4 with
          | some err =>
            exact Or.inl ⟨rfl, rfl, rfl, err, rfl, main_post_error args env hf h1a h2a h3a h4a⟩
          | none =>
            exact Or.inr (Or.inl ⟨rfl, rfl, rfl, rfl, main_post_ok args env hf h1a h2a h3a h4a⟩)
        | panicked =>
          exact Or.inr (Or.inr ⟨rfl, rfl, rfl, rfl,
            main_post_panicked args env hf h1a h2a h3a h4a⟩)

/-! ### Events of the stages -/

theorem resolveStage_trace (args : Args) (env : Env) :
    (resolveStage args env).1 = [Event.httpGet (latestTxtURL (flagValues args).imageHost
      (flagValues args).groupName (flagValues args).cameraName)] := rfl

theorem download_ok (env : Env) (get : Bytes → Except Error Response) (url path : Bytes) (fs : FS)
    (h : (download env get url path fs).2.2 = none) :
    ∃ status body, get url = .ok ⟨status, .ok body⟩ ∧ env.writeFile path body = none ∧
      download env get url path fs
        = ([Event.httpGet url, Event.writeFile path body], fs.set path (some body), none) := by
  unfold download at h ⊢
  cases hg : get url with
  | error e => simp [hg] at h
  | ok resp =>
    obtain ⟨status, rb⟩ := resp
    cases rb with
    | error e => simp [hg] at h
    | ok body =>
      cases hw : env.writeFile path body with
      | some p => simp [hg, hw] at h
      | none => exact ⟨status, body, rfl, hw, by simp [hw]⟩

theorem download_kinds (env : Env) (get : Bytes → Except Error Response) (url path : Bytes)
    (fs : FS) :
    (download env get url path fs).1.map Event.kind = [Kind.httpGet] ∨
    (download env get url path fs).1.map Event.kind = [Kind.httpGet, Kind.writeFile] := by
  unfold download
  cases hg : get url with
  | error e => left; rfl
  | ok resp =>
    obtain ⟨status, rb⟩ := resp
    cases rb with
    | error e => left; rfl
    | ok body =>
      cases hw : env.writeFile path body with
      | some p => right; simp [hw, Event.kind]
      | none => right; simp [hw, Event.kind]

theorem uploadMedia_ok (env : Env) (creds : Creds) (path : Bytes) (fs : FS)
    (h : (uploadMedia env creds path fs).2.2 = none) :
    ∃ content status body, fs path = some content ∧
      env.postMultipart creds mediaURL [⟨ascii "media", path, content⟩] = .ok ⟨status, .ok body⟩ ∧
      (Unmarshal env body).2 = none ∧
      uploadMedia env creds path fs
        = ([Event.openFile path, Event.postMultipart creds mediaURL [⟨ascii "media", path, content⟩]],
            (Unmarshal env body).1, none) := by
  unfold uploadMedia at h ⊢
  cases hc : env.createFormFile with
  | some e => simp [hc] at h
  | none =>
    cases hfs : fs path with
    | none => simp [hc, hfs] at h
    | some content =>
      cases ho : env.openFile path with
      | some e => simp [hc, hfs, ho] at h
      | none =>
        cases hcp : env.copy with
        | some e => simp [hc, hfs, ho, hcp] at h
        | none =>
          cases hcl : env.closeForm with
          | some e => simp [hc, hfs, ho, hcp, hcl] at h
          | none =>
            cases hp : env.postMultipart creds mediaURL [⟨ascii "media", path, content⟩] with
            | error e => simp [hc, hfs, ho, hcp, hcl, hp] at h
            | ok resp =>
              obtain ⟨status, rb⟩ := resp
              cases rb with
              | error e => simp [hc, hfs, ho, hcp, hcl, hp] at h
              | ok body =>
                rcases hu : Unmarshal env body with ⟨v, e⟩
                cases e with
                | some e => simp [hc, hfs, ho, hcp, hcl, hp, hu] at h
                | none =>
                  exact ⟨content, status, body, rfl, hp, by rw [hu],
                    by simp [hc, ho, hcp, hcl, hp, hu]⟩

theorem uploadMedia_kinds (env : Env) (creds : Creds) (path : Bytes) (fs : FS) :
    (uploadMedia env creds path fs).1.map Event.kind = [] ∨
    (uploadMedia env creds path fs).1.map Event.kind = [Kind.openFile] ∨
    (uploadMedia env creds path fs).1.map Event.kind = [Kind.openFile, Kind.postMultipart] := by
  unfold uploadMedia
  cases hc : env.createFormFile with
  | some e => left; rfl
  | none =>
    right
    cases hfs : fs path with
    | none => left; rfl
    | some content =>
      cases ho : env.openFile path with
      | some e => left; rfl
      | none =>
        cases hcp : env.copy with
        | some e => left; simp [ho, Event.kind]
        | none =>
          cases hcl : env.closeForm with
          | some e => left; simp [ho, hcp, Event.kind]
          | none =>
            right
            cases hp : env.postMultipart creds mediaURL [⟨ascii "media", path, content⟩] with
            | error e => simp [ho, hcp, hcl, hp, Event.kind]
            | ok resp =>
              obtain ⟨status, rb⟩ := resp
              cases rb with
              | error e => simp [ho, hcp, hcl, hp, Event.kind]
              | ok body =>
                rcases hu : Unmarshal env body with ⟨v, e⟩
                cases e with
                | some e => simp [ho, hcp, hcl, hp, hu, Event.kind]
                | none => simp [ho, hcp, hcl, hp, hu, Event.kind]

theorem deferredRemove_trace (env : Env) (path : Bytes) (fs : FS) :
    (deferredRemove env path fs).1 = [Event.remove path] := by
  unfold deferredRemove
  cases fs path with
  | none => rfl
  | some c =>
    cases env.remove path with
    | none => rfl
    | some e => rfl

/-! ### Runs that succeed -/

theorem exit_success_complete (args : Args) (env : Env)
    (hs : (main args env).exit = .success) : (flagValues args).complete := by
  by_contra hf
  obtain ⟨msg, hm⟩ := main_incomplete args env hf
  rw [hm] at hs
  exact Exit.noConfusion hs

/-- A run that ends with success made exactly seven calls, each fed by the one before. -/
theorem success_run (args : Args) (env : Env) (hs : (main args env).exit = .success) :
    ∃ url status image status2 body,
      (resolveStage args env).2 = (url, none) ∧
      env.httpGet 1 url = .ok ⟨status, .ok image⟩ ∧
      env.postMultipart (flagValues args).creds mediaURL [⟨ascii "media", filePath, image⟩]
        = .ok ⟨status2, .ok body⟩ ∧
      (uploadStage args env).2 = ((Unmarshal env body).1, none) ∧
      (main args env).trace =
        [Event.httpGet (latestTxtURL (flagValues args).imageHost (flagValues args).groupName
            (flagValues args).cameraName),
          Event.httpGet url,
          Event.writeFile filePath image,
          Event.openFile filePath,
          Event.postMultipart (flagValues args).creds mediaURL [⟨ascii "media", filePath, image⟩],
          Event.createTweet (flagValues args).creds (statusText env) [(Unmarshal env body).1],
          Event.remove filePath] := by
  have hf := exit_success_complete args env hs
  rcases main_cases args env hf with ⟨e, _, hm⟩ | ⟨_, e, _, hm⟩ | ⟨_, _, e, _, hm⟩ |
    ⟨_, _, _, e, _, hm⟩ | ⟨h1, h2, h3, h4, hm⟩ | ⟨_, _, _, _, hm⟩
  · rw [hm] at hs; exact Exit.noConfusion hs
  · rw [hm] at hs; exact Exit.noConfusion hs
  · rw [hm] at hs; exact Exit.noConfusion hs
  · rw [hm] at hs; exact Exit.noConfusion hs
  · obtain ⟨status, image, hget, -, hd⟩ :=
      download_ok env (env.httpGet 1) (resolveStage args env).2.1 filePath env.fs h2
    have hd2 : downloadStage args env = ([Event.httpGet (resolveStage args env).2.1,
        Event.writeFile filePath image], env.fs.set filePath (some image), none) := hd
    obtain ⟨content, status2, body, hfs, hpost, -, hu⟩ :=
      uploadMedia_ok env (flagValues args).creds filePath (downloadStage args env).2.1 h3
    have hu2 : uploadStage args env = ([Event.openFile filePath,
        Event.postMultipart (flagValues args).creds mediaURL [⟨ascii "media", filePath, content⟩]],
        (Unmarshal env body).1, none) := hu
    have hc : content = image := by
      rw [hd2] at hfs
      simpa [FS.set] using hfs.symm
    subst hc
    refine ⟨(resolveStage args env).2.1, status, content, status2, body, ?_, hget, hpost, ?_, ?_⟩
    · rw [← h1]
    · rw [hu2]
    · have hp : (postStage args env).1 = [Event.createTweet (flagValues args).creds
          (statusText env) [(uploadStage args env).2.1]] := rfl
      rw [hm]
      simp only [resolveStage_trace, hp, cleanup, deferredRemove_trace]
      rw [hu2, hd2]
      rfl
  · rw [hm] at hs; exact Exit.noConfusion hs

/-- C6: in a run that succeeds, the URL that `download` fetches is the URL returned by
`latestImageURL`; the file written is "latest.jpg" with exactly the bytes of the image
response body, and the same path with the same bytes is what `uploadMedia` opens and sends;
the tweet is created with the computed status as text and with the one-element list holding
the identifier returned by `uploadMedia` as media IDs. -/
theorem main_stages_chain (args : Args) (env : Env) (hs : (main args env).exit = .success) :
    ∃ url status image mediaID rest,
      (resolveStage args env).2 = (url, none) ∧
      env.httpGet 1 url = .ok ⟨status, .ok image⟩ ∧
      (uploadStage args env).2 = (mediaID, none) ∧
      (main args env).trace =
        Event.httpGet (latestTxtURL (flagValues args).imageHost (flagValues args).groupName
            (flagValues args).cameraName)
          :: Event.httpGet url
          :: Event.writeFile (ascii "latest.jpg") image
          :: Event.openFile (ascii "latest.jpg")
          :: Event.postMultipart (flagValues args).creds mediaURL
              [⟨ascii "media", ascii "latest.jpg", image⟩]
          :: Event.createTweet (flagValues args).creds (statusText env) [mediaID]
          :: rest := by
  obtain ⟨url, status, image, status2, body, h1, h2, -, h3, ht⟩ := success_run args env hs
  exact ⟨url, status, image, (Unmarshal env body).1, [Event.remove filePath], h1, h2, h3, ht⟩

/-- C6, at the sample run. -/
theorem main_stages_chain_witness :
    (main sampleArgs sampleEnv).exit = .success ∧
    ∃ url status image mediaID rest,
      (resolveStage sampleArgs sampleEnv).2 = (url, none) ∧
      sampleEnv.httpGet 1 url = .ok ⟨status, .ok image⟩ ∧
      (uploadStage sampleArgs sampleEnv).2 = (mediaID, none) ∧
      (main sampleArgs sampleEnv).trace =
        Event.httpGet (latestTxtURL (flagValues sampleArgs).imageHost
            (flagValues sampleArgs).groupName (flagValues sampleArgs).cameraName)
          :: Event.httpGet url
          :: Event.writeFile (ascii "latest.jpg") image
          :: Event.openFile (ascii "latest.jpg")
          :: Event.postMultipart (flagValues sampleArgs).creds mediaURL
              [⟨ascii "media", ascii "latest.jpg", image⟩]
          :: Event.createTweet (flagValues sampleArgs).creds (statusText sampleEnv) [mediaID]
          :: rest :=
  ⟨by decide, main_stages_chain sampleArgs sampleEnv (by decide)⟩

/-! ### Argument checks, abort on error, no retry -/

theorem download_ok_kinds (env : Env) (get : Bytes → Except Error Response) (url path : Bytes)
    (fs : FS) (h : (download env get url path fs).2.2 = none) :
    (download env get url path fs).1.map Event.kind = [Kind.httpGet, Kind.writeFile] := by
  obtain ⟨status, body, -, -, hd⟩ := download_ok env get url path fs h
  rw [hd]
  rfl

theorem uploadMedia_ok_kinds (env : Env) (creds : Creds) (path : Bytes) (fs : FS)
    (h : (uploadMedia env creds path fs).2.2 = none) :
    (uploadMedia env creds path fs).1.map Event.kind = [Kind.openFile, Kind.postMultipart] := by
  obtain ⟨content, status, body, -, -, -, hu⟩ := uploadMedia_ok env creds path fs h
  rw [hu]
  rfl

/-- C9: when the image host or one of the four credentials is the empty string, the run ends in
failure without any call (no HTTP request, no file written, the file system as it was); when all
five are non-empty, the first call of the run is the GET of `latestImageURL` for the given host
and the group and camera names, which are "mikan" and "camera-a" unless given. -/
theorem main_checks_required_flags (args : Args) (env : Env) :
    ((args.imageHost.getD (ascii "") = ascii "" ∨ args.consumerKey.getD (ascii "") = ascii "" ∨
        args.consumerSecret.getD (ascii "") = ascii "" ∨
        args.accessToken.getD (ascii "") = ascii "" ∨
        args.accessSecret.getD (ascii "") = ascii "") →
      (main args env).exit.failed = true ∧ (main args env).trace = [] ∧
        (main args env).fs = env.fs) ∧
    ((args.imageHost.getD (ascii "") ≠ ascii "" ∧ args.consumerKey.getD (ascii "") ≠ ascii "" ∧
        args.consumerSecret.getD (ascii "") ≠ ascii "" ∧
        args.accessToken.getD (ascii "") ≠ ascii "" ∧
        args.accessSecret.getD (ascii "") ≠ ascii "") →
      ∃ rest, (main args env).trace =
        Event.httpGet (latestTxtURL (args.imageHost.getD (ascii ""))
          (args.groupName.getD (ascii "mikan")) (args.cameraName.getD (ascii "camera-a")))
          :: rest) := by
  constructor
  · intro h
    have hf : ¬ (flagValues args).complete := by
      unfold Flags.complete flagValues
      simp only [ne_eq]
      tauto
    obtain ⟨msg, hm⟩ := main_incomplete args env hf
    rw [hm]
    exact ⟨rfl, rfl, rfl⟩
  · intro h
    have hf : (flagValues args).complete := h
    have ht : (resolveStage args env).1 = [Event.httpGet (latestTxtURL
        (args.imageHost.getD (ascii "")) (args.groupName.getD (ascii "mikan"))
        (args.cameraName.getD (ascii "camera-a")))] := rfl
    rcases main_cases args env hf with ⟨e, _, hm⟩ | ⟨_, e, _, hm⟩ | ⟨_, _, e, _, hm⟩ |
      ⟨_, _, _, e, _, hm⟩ | ⟨_, _, _, _, hm⟩ | ⟨_, _, _, _, hm⟩ <;>
    · rw [hm, ht]
      exact ⟨_, by simp only [List.cons_append, List.nil_append, List.append_assoc]; rfl⟩

/-- C9, at concrete inputs: a command line without any flag, and the sample command line. -/
theorem main_checks_required_flags_witness :
    ((main ⟨none, none, none, none, none, none, none⟩ sampleEnv).exit.failed = true ∧
      (main ⟨none, none, none, none, none, none, none⟩ sampleEnv).trace = [] ∧
      (main ⟨none, none, none, none, none, none, none⟩ sampleEnv).fs = sampleEnv.fs) ∧
    ∃ rest, (main sampleArgs sampleEnv).trace =
      Event.httpGet (ascii "https://cam.example/still/mikan/camera-a/latest.txt") :: rest :=
  ⟨(main_checks_required_flags ⟨none, none, none, none, none, none, none⟩ sampleEnv).1
      (Or.inl rfl),
   (main_checks_required_flags sampleArgs sampleEnv).2 (by decide)⟩

/-- C3: with complete flags, the first stage that returns an error ends the run in failure and
no call of a later stage is made: after a failed `latestImageURL` the trace is its one GET;
after a failed `download` the trace holds only GETs and at most the file write; after a failed
`uploadMedia` there is no tweet creation; a failed `post`, the last stage, ends the run in
failure as well. -/
theorem main_aborts_on_error (args : Args) (env : Env) (hf : (flagValues args).complete) :
    ((resolveStage args env).2.2 ≠ none →
      (main args env).exit.failed = true ∧
      (main args env).trace = [Event.httpGet (latestTxtURL (flagValues args).imageHost
        (flagValues args).groupName (flagValues args).cameraName)]) ∧
    ((resolveStage args env).2.2 = none → (downloadStage args env).2.2 ≠ none →
      (main args env).exit.failed = true ∧
      (main args env).trace = (resolveStage args env).1 ++ (downloadStage args env).1 ∧
      ∀ e ∈ (main args env).trace, e.kind = Kind.httpGet ∨ e.kind = Kind.writeFile) ∧
    ((resolveStage args env).2.2 = none → (downloadStage args env).2.2 = none →
      (uploadStage args env).2.2 ≠ none →
      (main args env).exit.failed = true ∧
      (main args env).trace = (resolveStage args env).1 ++ (downloadStage args env).1
        ++ (uploadStage args env).1 ∧
      ∀ e ∈ (main args env).trace, e.kind ≠ Kind.createTweet) ∧
    ((resolveStage args env).2.2 = none → (downloadStage args env).2.2 = none →
      (uploadStage args env).2.2 = none →
      ∀ err, (postStage args env).2 = .returned (some err) →
      (main args env).exit.failed = true) := by
  have hcases := main_cases args env hf
  refine ⟨?_, ?_, ?_, ?_⟩
  · intro h1
    rcases hcases with ⟨e, _, hm⟩ | ⟨c, _⟩ | ⟨c, _⟩ | ⟨c, _⟩ | ⟨c, _⟩ | ⟨c, _⟩
    · rw [hm]
      exact ⟨rfl, rfl⟩
    all_goals exact absurd c h1
  · intro h1 h2
    rcases hcases with ⟨e, c, _⟩ | ⟨_, e, _, hm⟩ | ⟨_, c, _⟩ | ⟨_, c, _⟩ | ⟨_, c, _⟩ | ⟨_, c, _⟩
    · rw [h1] at c
      exact Option.noConfusion c
    · rw [hm]
      refine ⟨rfl, rfl, ?_⟩
      intro ev hev
      have hk : ev.kind ∈ [Kind.httpGet] ++ (downloadStage args env).1.map Event.kind := by
        have hmem := List.mem_map_of_mem Event.kind hev
        rw [List.map_append] at hmem
        exact hmem
      rcases download_kinds env (env.httpGet 1) (resolveStage args env).2.1 filePath env.fs
        with hd | hd
      · have hd2 : (downloadStage args env).1.map Event.kind = [Kind.httpGet] := hd
        rw [hd2] at hk
        simp only [List.cons_append, List.nil_append, List.mem_cons, List.not_mem_nil,
          or_false, or_self] at hk
        exact Or.inl hk
      · have hd2 : (downloadStage args env).1.map Event.kind = [Kind.httpGet, Kind.writeFile] := hd
        rw [hd2] at hk
        simp only [List.cons_append, List.nil_append, List.mem_cons, List.not_mem_nil,
          or_false] at hk
        rcases hk with hk | hk | hk
        · exact Or.inl hk
        · exact Or.inl hk
        · exact Or.inr hk
    all_goals exact absurd c h2
  · intro h1 h2 h3
    rcases hcases with ⟨e, c, _⟩ | ⟨_, e, c, _⟩ | ⟨_, _, e, _, hm⟩ | ⟨_, _, c, _⟩ |
      ⟨_, _, c, _⟩ | ⟨_, _, c, _⟩
    · rw [h1] at c
      exact Option.noConfusion c
    · rw [h2] at c
      exact Option.noConfusion c
    · rw [hm]
      refine ⟨rfl, rfl, ?_⟩
      intro ev hev hc
      have hk : ev.kind ∈ [Kind.httpGet] ++ (downloadStage args env).1.map Event.kind
          ++ (uploadStage args env).1.map Event.kind := by
        have hmem := List.mem_map_of_mem Event.kind hev
        rw [List.map_append, List.map_append] at hmem
        exact hmem
      have hd2 : (downloadStage args env).1.map Event.kind = [Kind.httpGet, Kind.writeFile] :=
        download_ok_kinds env (env.httpGet 1) (resolveStage args env).2.1 filePath env.fs h2
      rw [hd2, hc] at hk
      rcases uploadMedia_kinds env (flagValues args).creds filePath (downloadStage args env).2.1
        with hu | hu | hu
      · have hu2 : (uploadStage args env).1.map Event.kind = [] := hu
        rw [hu2] at hk
        exact absurd hk (by decide)
      · have hu2 : (uploadStage args env).1.map Event.kind = [Kind.openFile] := hu
        rw [hu2] at hk
        exact absurd hk (by decide)
      · have hu2 : (uploadStage args env).1.map Event.kind
            = [Kind.openFile, Kind.postMultipart] := hu
        rw [hu2] at hk
        exact absurd hk (by decide)
    all_goals exact absurd c h3
  · intro h1 h2 h3 err h4
    rcases hcases with ⟨e, c, _⟩ | ⟨_, e, c, _⟩ | ⟨_, _, e, c, _⟩ | ⟨_, _, _, e, _, hm⟩ |
      ⟨_, _, _, c, _⟩ | ⟨_, _, _, c, _⟩
    · rw [h1] at c
      exact Option.noConfusion c
    · rw [h2] at c
      exact Option.noConfusion c
    · rw [h3] at c
      exact Option.noConfusion c
    · rw [hm]
      rfl
    · rw [h4] at c
      exact PostResult.noConfusion c (fun h => Option.noConfusion h)
    · rw [h4] at c
      exact PostResult.noConfusion c

/-- C3, at a concrete run: the upload request fails in transport, so the run ends in failure
after the upload request, without a tweet creation. -/
theorem main_aborts_on_error_witness :
    (flagValues sampleArgs).complete ∧
    (main sampleArgs uploadDownEnv).exit.failed = true ∧
    (main sampleArgs uploadDownEnv).trace = (resolveStage sampleArgs uploadDownEnv).1
      ++ (downloadStage sampleArgs uploadDownEnv).1 ++ (uploadStage sampleArgs uploadDownEnv).1 ∧
    ∀ e ∈ (main sampleArgs uploadDownEnv).trace, e.kind ≠ Kind.createTweet :=
  ⟨by decide,
    (main_aborts_on_error sampleArgs uploadDownEnv (by decide)).2.2.1
      (by decide) (by decide) (by decide)⟩

theorem download_trace (env : Env) (get : Bytes → Except Error Response) (url path : Bytes)
    (fs : FS) :
    (download env get url path fs).1 = [Event.httpGet url] ∨
    ∃ body, (download env get url path fs).1 = [Event.httpGet url, Event.writeFile path body] := by
  unfold download
  cases hg : get url with
  | error e => left; rfl
  | ok resp =>
    obtain ⟨status, rb⟩ := resp
    cases rb with
    | error e => left; rfl
    | ok body =>
      right
      refine ⟨body, ?_⟩
      cases hw : env.writeFile path body with
      | some p => simp [hw]
      | none => simp [hw]

theorem uploadMedia_trace (env : Env) (creds : Creds) (path : Bytes) (fs : FS) :
    (uploadMedia env creds path fs).1 = [] ∨
    (uploadMedia env creds path fs).1 = [Event.openFile path] ∨
    ∃ content, (uploadMedia env creds path fs).1
      = [Event.openFile path, Event.postMultipart creds mediaURL [⟨ascii "media", path, content⟩]] := by
  unfold uploadMedia
  cases hc : env.createFormFile with
  | some e => left; rfl
  | none =>
    right
    cases hfs : fs path with
    | none => left; rfl
    | some content =>
      cases ho : env.openFile path with
      | some e => left; rfl
      | none =>
        cases hcp : env.copy with
        | some e => left; simp [ho]
        | none =>
          cases hcl : env.closeForm with
          | some e => left; simp [ho, hcp]
          | none =>
            right
            refine ⟨content, ?_⟩
            cases hp : env.postMultipart creds mediaURL [⟨ascii "media", path, content⟩] with
            | error e => simp [ho, hcp, hcl, hp]
            | ok resp =>
              obtain ⟨status, rb⟩ := resp
              cases rb with
              | error e => simp [ho, hcp, hcl, hp]
              | ok body =>
                rcases hu : Unmarshal env body with ⟨v, e⟩
                cases e with
                | some e => simp [ho, hcp, hcl, hp, hu]
                | none => simp [ho, hcp, hcl, hp, hu]

/-- The URL that `latestImageURL` returns is never the URL it fetched: after an error it is
empty, after success it ends with ".jpg", while the URL fetched ends with ".txt". -/
theorem latestImageURL_ne_latestTxtURL (get : Bytes → Except Error Response)
    (imageHost groupName cameraName : Bytes) :
    (latestImageURL get imageHost groupName cameraName).2.1
      ≠ latestTxtURL imageHost groupName cameraName := by
  have hnil : ([] : Bytes) ≠ latestTxtURL imageHost groupName cameraName := by
    intro h
    have hl := congrArg List.length h
    have h8 : (ascii "https://").length = 8 := by decide
    simp only [latestTxtURL, List.length_append, List.length_nil, h8] at hl
    omega
  unfold latestImageURL
  cases hg : get (latestTxtURL imageHost groupName cameraName) with
  | error e => simpa [hg] using hnil
  | ok resp =>
    cases hb : resp.body with
    | error e => simpa [hg, hb] using hnil
    | ok body =>
      by_cases hs : HasSuffix body (ascii ".jpg") = true
      · have hjpg : ascii ".jpg" <:+ body := (hasSuffix_iff _ _).1 hs
        simp only [hg, hb, hs, Bool.not_true, Bool.false_eq_true, if_false]
        intro heq
        have h1 : ascii ".jpg" <:+ latestTxtURL imageHost groupName cameraName := by
          rw [← heq]
          exact hjpg.trans (List.suffix_append _ _)
        have h2 : ascii ".txt" <:+ latestTxtURL imageHost groupName cameraName := by
          have h3 : ascii ".txt" <:+ ascii "/latest.txt" := by decide
          exact h3.trans (List.suffix_append _ _)
        have h4 : ascii ".jpg" <:+ ascii ".txt" :=
          List.suffix_of_suffix_length_le h1 h2 (by decide)
        exact absurd (h4.eq_of_length (by decide)) (by decide)
      · simpa [hg, hb, hs] using hnil

/-- With complete flags the calls of a run are an initial part of one fixed sequence of seven
calls, and after a failed `latestImageURL` the run has made its one GET only. -/
theorem main_trace_prefix (args : Args) (env : Env) (hf : (flagValues args).complete) :
    ((resolveStage args env).2.2 ≠ none →
      (main args env).trace = [Event.httpGet (latestTxtURL (flagValues args).imageHost
        (flagValues args).groupName (flagValues args).cameraName)]) ∧
    ∃ image content mediaID,
      (main args env).trace <+:
        [Event.httpGet (latestTxtURL (flagValues args).imageHost (flagValues args).groupName
            (flagValues args).cameraName),
          Event.httpGet (resolveStage args env).2.1,
          Event.writeFile filePath image,
          Event.openFile filePath,
          Event.postMultipart (flagValues args).creds mediaURL [⟨ascii "media", filePath, content⟩],
          Event.createTweet (flagValues args).creds (statusText env) [mediaID],
          Event.remove filePath] := by
  have hr := resolveStage_trace args env
  have hp : (postStage args env).1 = [Event.createTweet (flagValues args).creds
      (statusText env) [(uploadStage args env).2.1]] := rfl
  have hc : (cleanup args env).1 = [Event.remove filePath] := by
    unfold cleanup
    rw [deferredRemove_trace]
  have hd : (downloadStage args env).1 = [Event.httpGet (resolveStage args env).2.1] ∨
      ∃ body, (downloadStage args env).1
        = [Event.httpGet (resolveStage args env).2.1, Event.writeFile filePath body] :=
    download_trace env (env.httpGet 1) (resolveStage args env).2.1 filePath env.fs
  have hd1 : (downloadStage args env).2.2 = none → ∃ body, (downloadStage args env).1
      = [Event.httpGet (resolveStage args env).2.1, Event.writeFile filePath body] := by
    intro h2
    obtain ⟨status, body, -, -, hdl⟩ :=
      download_ok env (env.httpGet 1) (resolveStage args env).2.1 filePath env.fs h2
    exact ⟨body, by unfold downloadStage; rw [hdl]⟩
  have hu : (uploadStage args env).1 = [] ∨ (uploadStage args env).1 = [Event.openFile filePath] ∨
      ∃ content, (uploadStage args env).1 = [Event.openFile filePath,
        Event.postMultipart (flagValues args).creds mediaURL [⟨ascii "media", filePath, content⟩]] :=
    uploadMedia_trace env (flagValues args).creds filePath (downloadStage args env).2.1
  have hu1 : (uploadStage args env).2.2 = none →
      ∃ content, (uploadStage args env).1 = [Event.openFile filePath,
        Event.postMultipart (flagValues args).creds mediaURL [⟨ascii "media", filePath, content⟩]] := by
    intro h3
    obtain ⟨content, status, body, -, -, -, hul⟩ :=
      uploadMedia_ok env (flagValues args).creds filePath (downloadStage args env).2.1 h3
    exact ⟨content, by unfold uploadStage; rw [hul]⟩
  rcases main_cases args env hf with ⟨e, _, hm⟩ | ⟨h1, e, _, hm⟩ | ⟨h1, h2, e, _, hm⟩ |
    ⟨h1, h2, h3, e, _, hm⟩ | ⟨h1, h2, h3, _, hm⟩ | ⟨h1, h2, h3, _, hm⟩
  · rw [hm, hr]
    exact ⟨fun _ => rfl, [], [], [], ⟨_, rfl⟩⟩
  · refine ⟨fun h => absurd h1 h, ?_⟩
    rw [hm, hr]
    rcases hd with hd | ⟨body, hd⟩
    · rw [hd]
      exact ⟨[], [], [], ⟨_, rfl⟩⟩
    · rw [hd]
      exact ⟨body, [], [], ⟨_, rfl⟩⟩
  · refine ⟨fun h => absurd h1 h, ?_⟩
    obtain ⟨body, hd⟩ := hd1 h2
    rw [hm, hr, hd]
    rcases hu with hu | hu | ⟨content, hu⟩
    · rw [hu]
      exact ⟨body, [], [], ⟨_, rfl⟩⟩
    · rw [hu]
      exact ⟨body, [], [], ⟨_, rfl⟩⟩
    · rw [hu]
      exact ⟨body, content, [], ⟨_, rfl⟩⟩
  · refine ⟨fun h => absurd h1 h, ?_⟩
    obtain ⟨body, hd⟩ := hd1 h2
    obtain ⟨content, hu⟩ := hu1 h3
    rw [hm, hr, hd, hu, hp]
    exact ⟨body, content, _, ⟨_, rfl⟩⟩
  · refine ⟨fun h => absurd h1 h, ?_⟩
    obtain ⟨body, hd⟩ := hd1 h2
    obtain ⟨content, hu⟩ := hu1 h3
    rw [hm, hr, hd, hu, hp, hc]
    exact ⟨body, content, _, ⟨[], rfl⟩⟩
  · refine ⟨fun h => absurd h1 h, ?_⟩
    obtain ⟨body, hd⟩ := hd1 h2
    obtain ⟨content, hu⟩ := hu1 h3
    rw [hm, hr, hd, hu, hp, hc]
    exact ⟨body, content, _, ⟨[], rfl⟩⟩

/-- C8, amended: there is no retry.  In every run the kinds of the calls made, in order, form an
initial part of GET, GET, write, open, multipart POST, tweet creation, remove; no call occurs
twice in the trace; and every GET is either the GET of latest.txt or, after `latestImageURL`
returned a nil error, the GET of the URL it returned.  In a run that succeeds the calls are
exactly seven, in this order: the GET of latest.txt, the GET of the image, the write of the
scratch file, the opening of the scratch file for reading, the multipart POST to the media
upload endpoint, the tweet creation with the OAuth1 credentials, and the removal of the
scratch file. -/
theorem main_no_retry (args : Args) (env : Env) :
    (main args env).trace.map Event.kind <+: [Kind.httpGet, Kind.httpGet, Kind.writeFile,
      Kind.openFile, Kind.postMultipart, Kind.createTweet, Kind.remove] ∧
    (main args env).trace.Nodup ∧
    (∀ url, Event.httpGet url ∈ (main args env).trace →
      url = latestTxtURL (flagValues args).imageHost (flagValues args).groupName
          (flagValues args).cameraName ∨
      ((resolveStage args env).2.2 = none ∧ url = (resolveStage args env).2.1)) ∧
    ((main args env).exit = .success →
      ∃ url image mediaID,
        (resolveStage args env).2 = (url, none) ∧
        (main args env).trace =
          [Event.httpGet (latestTxtURL (flagValues args).imageHost (flagValues args).groupName
              (flagValues args).cameraName),
            Event.httpGet url,
            Event.writeFile (ascii "latest.jpg") image,
            Event.openFile (ascii "latest.jpg"),
            Event.postMultipart (flagValues args).creds
              (ascii "https://upload.twitter.com/1.1/media/upload.json")
              [⟨ascii "media", ascii "latest.jpg", image⟩],
            Event.createTweet (flagValues args).creds (statusText env) [mediaID],
            Event.remove (ascii "latest.jpg")]) := by
  have hlast : ∀ hs : (main args env).exit = .success, ∃ url image mediaID,
      (resolveStage args env).2 = (url, none) ∧
      (main args env).trace =
        [Event.httpGet (latestTxtURL (flagValues args).imageHost (flagValues args).groupName
            (flagValues args).cameraName),
          Event.httpGet url,
          Event.writeFile (ascii "latest.jpg") image,
          Event.openFile (ascii "latest.jpg"),
          Event.postMultipart (flagValues args).creds
            (ascii "https://upload.twitter.com/1.1/media/upload.json")
            [⟨ascii "media", ascii "latest.jpg", image⟩],
          Event.createTweet (flagValues args).creds (statusText env) [mediaID],
          Event.remove (ascii "latest.jpg")] := by
    intro hs
    obtain ⟨url, status, image, status2, body, h1, -, -, -, ht⟩ := success_run args env hs
    exact ⟨url, image, (Unmarshal env body).1, h1, ht⟩
  by_cases hf : (flagValues args).complete
  · obtain ⟨hfail, image, content, mediaID, hpre⟩ := main_trace_prefix args env hf
    have hne : (resolveStage args env).2.1 ≠ latestTxtURL (flagValues args).imageHost
        (flagValues args).groupName (flagValues args).cameraName :=
      latestImageURL_ne_latestTxtURL _ _ _ _
    refine ⟨?_, ?_, ?_, hlast⟩
    · exact hpre.map Event.kind
    · refine List.Nodup.sublist hpre.sublist ?_
      simp [Ne.symm hne]
    · intro url hmem
      by_cases h1 : (resolveStage args env).2.2 = none
      · have hm2 := hpre.subset hmem
        simp only [List.mem_cons, Event.httpGet.injEq, List.mem_singleton, List.not_mem_nil,
          or_false, reduceCtorEq, false_or] at hm2
        rcases hm2 with h | h
        · exact Or.inl h
        · exact Or.inr ⟨h1, h⟩
      · rw [hfail h1] at hmem
        simp only [List.mem_singleton, Event.httpGet.injEq] at hmem
        exact Or.inl hmem
  · obtain ⟨msg, hm⟩ := main_incomplete args env hf
    refine ⟨?_, ?_, ?_, hlast⟩
    · rw [hm]
      exact List.nil_prefix
    · rw [hm]
      exact List.nodup_nil
    · intro url hmem
      rw [hm] at hmem
      exact absurd hmem (List.not_mem_nil _)

/-- C8, amended, at the sample run. -/
theorem main_no_retry_witness :
    (main sampleArgs sampleEnv).exit = .success ∧
    ∃ url image mediaID,
      (resolveStage sampleArgs sampleEnv).2 = (url, none) ∧
      (main sampleArgs sampleEnv).trace =
        [Event.httpGet (latestTxtURL (flagValues sampleArgs).imageHost
            (flagValues sampleArgs).groupName (flagValues sampleArgs).cameraName),
          Event.httpGet url,
          Event.writeFile (ascii "latest.jpg") image,
          Event.openFile (ascii "latest.jpg"),
          Event.postMultipart (flagValues sampleArgs).creds
            (ascii "https://upload.twitter.com/1.1/media/upload.json")
            [⟨ascii "media", ascii "latest.jpg", image⟩],
          Event.createTweet (flagValues sampleArgs).creds (statusText sampleEnv) [mediaID],
          Event.remove (ascii "latest.jpg")] :=
  ⟨by decide, (main_no_retry sampleArgs sampleEnv).2.2.2 (by decide)⟩

/-- C8 as stated fails: the sample run succeeds and makes seven calls, not five; between the
write of the scratch file and the multipart POST it opens the scratch file, and after the tweet
creation it removes it. -/
theorem main_success_makes_seven_calls :
    (main sampleArgs sampleEnv).exit = .success ∧
    (main sampleArgs sampleEnv).trace.map Event.kind =
      [Kind.httpGet, Kind.httpGet, Kind.writeFile, Kind.openFile, Kind.postMultipart,
        Kind.createTweet, Kind.remove] ∧
    (main sampleArgs sampleEnv).trace.length = 7 ∧
    Event.openFile (ascii "latest.jpg") ∈ (main sampleArgs sampleEnv).trace ∧
    Event.remove (ascii "latest.jpg") ∈ (main sampleArgs sampleEnv).trace := by
  decide

/-- C2, the code at a failing input: the download succeeds and writes "latest.jpg", the upload
request fails, `main` calls `log.Fatal`, and the run ends with the scratch file still in place
and without any call of `os.Remove`. -/
theorem scratch_file_left_after_failed_upload :
    (downloadStage sampleArgs uploadDownEnv).2.2 = none ∧
    (main sampleArgs uploadDownEnv).exit = .fatal (.wrapf (ascii "failed to upload media: %w") []
      (.lib (ascii "connection refused"))) ∧
    (main sampleArgs uploadDownEnv).trace =
      [Event.httpGet (ascii "https://cam.example/still/mikan/camera-a/latest.txt"),
        Event.httpGet (ascii "https://cam.example/a.jpg"),
        Event.writeFile (ascii "latest.jpg") [0xFF, 0xD8, 0xFF, 0xD9],
        Event.openFile (ascii "latest.jpg"),
        Event.postMultipart sampleCreds mediaURL
          [⟨ascii "media", ascii "latest.jpg", [0xFF, 0xD8, 0xFF, 0xD9]⟩]] ∧
    (main sampleArgs uploadDownEnv).fs (ascii "latest.jpg") = some [0xFF, 0xD8, 0xFF, 0xD9] := by
  decide

/-! ### The media identifier -/

theorem uploadMedia_answered_ok (env : Env) (creds : Creds) (path : Bytes) (fs : FS)
    (status : Int) (body v : Bytes) (h : uploadAnswered env creds path fs status body)
    (hu : Unmarshal env body = (v, none)) :
    (uploadMedia env creds path fs).2 = (v, none) := by
  obtain ⟨hc, content, hfs, ho, hcp, hcl, hp⟩ := h
  simp [uploadMedia, hc, hfs, ho, hcp, hcl, hp, hu]

theorem uploadMedia_answered_error (env : Env) (creds : Creds) (path : Bytes) (fs : FS)
    (status : Int) (body v : Bytes) (e : Error) (h : uploadAnswered env creds path fs status body)
    (hu : Unmarshal env body = (v, some e)) :
    (uploadMedia env creds path fs).2
      = ([], some (.wrapf (ascii "failed to unmarshal media upload response: %w") [] e)) := by
  obtain ⟨hc, content, hfs, ho, hcp, hcl, hp⟩ := h
  simp [uploadMedia, hc, hfs, ho, hcp, hcl, hp, hu]

theorem foldl_decodeMember_skip (env : Env) (members : List (Bytes × JSON))
    (st : Bytes × Option Error) (h : ∀ m ∈ members, nameMatches env m.1 = false) :
    members.foldl (decodeMember env) st = st := by
  induction members generalizing st with
  | nil => rfl
  | cons m rest ih =>
    have hm : nameMatches env m.1 = false := h m (List.mem_cons_self _ _)
    have hstep : decodeMember env st m = st := by simp [decodeMember, hm]
    rw [List.foldl_cons, hstep]
    exact ih st (fun x hx => h x (List.mem_cons_of_mem _ hx))

theorem nameMatches_exact (env : Env) : nameMatches env (ascii "media_id_string") = true := by
  simp [nameMatches]

theorem Unmarshal_single (env : Env) (body s : Bytes) (before after : List (Bytes × JSON))
    (hp : env.parseJSON body
      = .ok (.object (before ++ (ascii "media_id_string", .string s) :: after)))
    (hn : ∀ m ∈ before ++ after, nameMatches env m.1 = false) :
    Unmarshal env body = (s, none) := by
  have hb : ∀ m ∈ before, nameMatches env m.1 = false :=
    fun m hm => hn m (List.mem_append_left _ hm)
  have ha : ∀ m ∈ after, nameMatches env m.1 = false :=
    fun m hm => hn m (List.mem_append_right _ hm)
  have hstep : decodeMember env ([], none) (ascii "media_id_string", JSON.string s) = (s, none) := by
    simp [decodeMember, nameMatches_exact]
  simp only [Unmarshal, hp, List.foldl_append, List.foldl_cons]
  rw [foldl_decodeMember_skip env before _ hb, hstep, foldl_decodeMember_skip env after _ ha]

/-- C5, amended: when the upload is answered with a body that reads as a JSON object with a
member "media_id_string" holding a string `s`, and no other member of the object has a name
that matches "media_id_string" exactly or after case folding, `uploadMedia` returns `s` with a
nil error; when the body is not valid JSON, `uploadMedia` returns the empty identifier and an
error. -/
theorem uploadMedia_parses_identifier (env : Env) (creds : Creds) (path : Bytes) (fs : FS)
    (status : Int) (body : Bytes) (h : uploadAnswered env creds path fs status body) :
    (∀ before after s,
      env.parseJSON body
        = .ok (.object (before ++ (ascii "media_id_string", .string s) :: after)) →
      (∀ m ∈ before ++ after, nameMatches env m.1 = false) →
      (uploadMedia env creds path fs).2 = (s, none)) ∧
    (∀ e, env.parseJSON body = .error e →
      ∃ err, (uploadMedia env creds path fs).2 = ([], some err)) := by
  constructor
  · intro before after s hp hn
    exact uploadMedia_answered_ok env creds path fs status body s h
      (Unmarshal_single env body s before after hp hn)
  · intro e hp
    have hu : Unmarshal env body = ([], some e) := by simp [Unmarshal, hp]
    exact ⟨_, uploadMedia_answered_error env creds path fs status body [] e h hu⟩

/-- C5, amended, at concrete inputs: the answer `textWithID` yields the identifier "1", the
answer `textHTML` yields an error. -/
theorem uploadMedia_parses_identifier_witness :
    (uploadAnswered sampleEnv sampleCreds filePath scratchFS 200 textWithID ∧
      (uploadMedia sampleEnv sampleCreds filePath scratchFS).2 = (ascii "1", none)) ∧
    (uploadAnswered (answerEnv 502 textHTML) sampleCreds filePath scratchFS 502 textHTML ∧
      ∃ err, (uploadMedia (answerEnv 502 textHTML) sampleCreds filePath scratchFS).2
        = ([], some err)) :=
  ⟨⟨⟨rfl, _, rfl, rfl, rfl, rfl, rfl⟩,
      (uploadMedia_parses_identifier sampleEnv sampleCreds filePath scratchFS 200 textWithID
        ⟨rfl, _, rfl, rfl, rfl, rfl, rfl⟩).1 [] [] (ascii "1") rfl
        (fun m hm => absurd hm (List.not_mem_nil m))⟩,
    ⟨⟨rfl, _, rfl, rfl, rfl, rfl, rfl⟩,
      (uploadMedia_parses_identifier (answerEnv 502 textHTML) sampleCreds filePath scratchFS 502
        textHTML ⟨rfl, _, rfl, rfl, rfl, rfl, rfl⟩).2 _ rfl⟩⟩

/-- C5 as stated fails: the upload is answered with an object in which the one member named
"media_id_string" is the string "a" and a later member is named "MEDIA_ID_STRING"; the name of
the later member matches the field after case folding, and `uploadMedia` returns its value "b",
not "a". -/
theorem uploadMedia_takes_later_folded_name :
    uploadAnswered (answerEnv 200 textTwoCases) sampleCreds filePath scratchFS 200 textTwoCases ∧
    (answerEnv 200 textTwoCases).parseJSON textTwoCases
      = .ok (.object [(ascii "media_id_string", .string (ascii "a")),
          (ascii "MEDIA_ID_STRING", .string (ascii "b"))]) ∧
    membersNamed (ascii "media_id_string") [(ascii "media_id_string", .string (ascii "a")),
        (ascii "MEDIA_ID_STRING", .string (ascii "b"))]
      = [(ascii "media_id_string", .string (ascii "a"))] ∧
    (uploadMedia (answerEnv 200 textTwoCases) sampleCreds filePath scratchFS).2
      = (ascii "b", none) ∧
    (uploadMedia (answerEnv 200 textTwoCases) sampleCreds filePath scratchFS).2
      ≠ (ascii "a", none) :=
  ⟨⟨rfl, _, rfl, rfl, rfl, rfl, rfl⟩, rfl, rfl, by decide, by decide⟩

theorem Unmarshal_no_member (env : Env) (body : Bytes) (members : List (Bytes × JSON))
    (hp : env.parseJSON body = .ok (.object members))
    (hn : ∀ m ∈ members, nameMatches env m.1 = false) :
    Unmarshal env body = ([], none) := by
  simp only [Unmarshal, hp]
  exact foldl_decodeMember_skip env members _ hn

theorem post_called_of_upload_ok (args : Args) (env : Env) (hf : (flagValues args).complete)
    (h1 : (resolveStage args env).2.2 = none) (h2 : (downloadStage args env).2.2 = none)
    (h3 : (uploadStage args env).2.2 = none) :
    Event.createTweet (flagValues args).creds (statusText env) [(uploadStage args env).2.1]
      ∈ (main args env).trace := by
  have hp : (postStage args env).1 = [Event.createTweet (flagValues args).creds
      (statusText env) [(uploadStage args env).2.1]] := rfl
  rcases main_cases args env hf with ⟨e, c, _⟩ | ⟨_, e, c, _⟩ | ⟨_, _, e, c, _⟩ |
    ⟨_, _, _, e, _, hm⟩ | ⟨_, _, _, _, hm⟩ | ⟨_, _, _, _, hm⟩
  · rw [h1] at c
    exact Option.noConfusion c
  · rw [h2] at c
    exact Option.noConfusion c
  · rw [h3] at c
    exact Option.noConfusion c
  · rw [hm, hp]
    simp
  · rw [hm, hp]
    simp
  · rw [hm, hp]
    simp

/-- C10, amended: when the upload is answered, with any status code, by a body that reads as a
JSON object none of whose members has a name matching "media_id_string" exactly or after case
folding, `uploadMedia` returns the empty string with a nil error; and when this happens in
`main`, `post` is called and creates the tweet with the empty string as the single media ID. -/
theorem uploadMedia_without_identifier (env : Env) :
    (∀ (creds : Creds) (path : Bytes) (fs : FS) (status : Int) (body : Bytes)
        (members : List (Bytes × JSON)),
      uploadAnswered env creds path fs status body →
      env.parseJSON body = .ok (.object members) →
      (∀ m ∈ members, nameMatches env m.1 = false) →
      (uploadMedia env creds path fs).2 = ([], none)) ∧
    (∀ (args : Args) (status : Int) (body : Bytes) (members : List (Bytes × JSON)),
      (flagValues args).complete →
      (resolveStage args env).2.2 = none → (downloadStage args env).2.2 = none →
      uploadAnswered env (flagValues args).creds filePath (downloadStage args env).2.1
        status body →
      env.parseJSON body = .ok (.object members) →
      (∀ m ∈ members, nameMatches env m.1 = false) →
      (postStage args env).1
        = [Event.createTweet (flagValues args).creds (statusText env) [ascii ""]] ∧
      Event.createTweet (flagValues args).creds (statusText env) [ascii ""]
        ∈ (main args env).trace) := by
  have key : ∀ (creds : Creds) (path : Bytes) (fs : FS) (status : Int) (body : Bytes)
      (members : List (Bytes × JSON)),
      uploadAnswered env creds path fs status body →
      env.parseJSON body = .ok (.object members) →
      (∀ m ∈ members, nameMatches env m.1 = false) →
      (uploadMedia env creds path fs).2 = ([], none) := by
    intro creds path fs status body members h hp hn
    exact uploadMedia_answered_ok env creds path fs status body [] h
      (Unmarshal_no_member env body members hp hn)
  refine ⟨key, ?_⟩
  intro args status body members hf h1 h2 h hp hn
  have hu : (uploadStage args env).2 = ([], none) := key _ _ _ status body members h hp hn
  have h3 : (uploadStage args env).2.2 = none := by rw [hu]
  have hid : (uploadStage args env).2.1 = ascii "" := by rw [hu]; rfl
  have hcall := post_called_of_upload_ok args env hf h1 h2 h3
  rw [hid] at hcall
  refine ⟨?_, hcall⟩
  show [Event.createTweet (flagValues args).creds (statusText env) [(uploadStage args env).2.1]]
    = _
  rw [hid]

/-- C10, amended, at a concrete run: the upload endpoint answers 401 with an API error object;
`uploadMedia` returns the empty identifier and the tweet is created with it. -/
theorem uploadMedia_without_identifier_witness :
    (uploadAnswered (answerEnv 401 textAPIError) sampleCreds filePath scratchFS 401 textAPIError ∧
      (uploadMedia (answerEnv 401 textAPIError) sampleCreds filePath scratchFS).2 = ([], none)) ∧
    ((flagValues sampleArgs).complete ∧
      Event.createTweet (flagValues sampleArgs).creds (statusText (answerEnv 401 textAPIError))
          [ascii ""]
        ∈ (main sampleArgs (answerEnv 401 textAPIError)).trace) :=
  ⟨⟨⟨rfl, _, rfl, rfl, rfl, rfl, rfl⟩,
      (uploadMedia_without_identifier (answerEnv 401 textAPIError)).1 sampleCreds filePath
        scratchFS 401 textAPIError _ ⟨rfl, _, rfl, rfl, rfl, rfl, rfl⟩ rfl
        (fun m hm => by rw [List.mem_singleton] at hm; rw [hm]; decide)⟩,
    ⟨by decide,
      ((uploadMedia_without_identifier (answerEnv 401 textAPIError)).2 sampleArgs 401
        textAPIError _ (by decide) (by decide) (by decide) ⟨rfl, _, rfl, rfl, rfl, rfl, rfl⟩ rfl
        (fun m hm => by rw [List.mem_singleton] at hm; rw [hm]; decide)).2⟩⟩

/-- C10 as stated fails: the upload is answered with an object that has no member named
"media_id_string" but one named "MEDIA_ID_STRING"; the name matches the field after case
folding, and `uploadMedia` returns the value "x" of that member, not the empty string. -/
theorem uploadMedia_takes_folded_name :
    uploadAnswered (answerEnv 200 textUpperCase) sampleCreds filePath scratchFS 200
      textUpperCase ∧
    (answerEnv 200 textUpperCase).parseJSON textUpperCase
      = .ok (.object [(ascii "MEDIA_ID_STRING", .string (ascii "x"))]) ∧
    membersNamed (ascii "media_id_string") [(ascii "MEDIA_ID_STRING", .string (ascii "x"))]
      = [] ∧
    (uploadMedia (answerEnv 200 textUpperCase) sampleCreds filePath scratchFS).2
      = (ascii "x", none) ∧
    (uploadMedia (answerEnv 200 textUpperCase) sampleCreds filePath scratchFS).2
      ≠ ([], none) :=
  ⟨⟨rfl, _, rfl, rfl, rfl, rfl, rfl⟩, rfl, rfl, by decide, by decide⟩

/-! ### float64 rounding -/

theorem roundHalfEven_intCast (n : ℤ) : roundHalfEven (n : ℚ) = n := by
  simp [roundHalfEven]

theorem roundHalfEven_of_near (y : ℚ) (m : ℤ) (h1 : (m : ℚ) - 1 / 2 < y) (h2 : y < m + 1 / 2) :
    roundHalfEven y = m := by
  unfold roundHalfEven
  by_cases hy : (m : ℚ) ≤ y
  · have hf : ⌊y⌋ = m := by
      rw [Int.floor_eq_iff]
      constructor
      · exact hy
      · linarith
    simp only [hf]
    rw [if_pos (by linarith)]
  · push_neg at hy
    have hf : ⌊y⌋ = m - 1 := by
      rw [Int.floor_eq_iff]
      push_cast
      constructor
      · linarith
      · linarith
    simp only [hf]
    push_cast
    rw [if_neg (by linarith), if_pos (by linarith)]
    ring

theorem roundHalfEven_mono {x y : ℚ} (h : x ≤ y) : roundHalfEven x ≤ roundHalfEven y := by
  have hfl : ⌊x⌋ ≤ ⌊y⌋ := Int.floor_mono h
  have hx1 : roundHalfEven x ≤ ⌊x⌋ + 1 := by
    unfold roundHalfEven
    simp only
    split_ifs <;> omega
  have hy0 : ⌊y⌋ ≤ roundHalfEven y := by
    unfold roundHalfEven
    simp only
    split_ifs <;> omega
  rcases lt_or_eq_of_le hfl with hlt | heq
  · omega
  · -- same floor
    have hxy : x - ⌊x⌋ ≤ y - ⌊y⌋ := by rw [heq]; linarith
    unfold roundHalfEven
    simp only
    rw [heq] at hxy ⊢
    split_ifs <;> first | omega | linarith

theorem ulpExp_eq {x : ℚ} (hx : 0 < x) (e : ℤ) (h1 : (2 : ℚ) ^ (e + 52) ≤ x)
    (h2 : x < (2 : ℚ) ^ (e + 53)) : ulpExp x = e := by
  unfold ulpExp
  rw [abs_of_pos hx]
  have ha : e + 52 ≤ Int.log 2 x := by
    apply (Int.zpow_le_iff_le_log (show 1 < 2 by norm_num) hx).1
    exact_mod_cast h1
  have hb : Int.log 2 x < e + 53 := by
    apply (Int.lt_zpow_iff_log_lt (show 1 < 2 by norm_num) hx).1
    exact_mod_cast h2
  omega


theorem ulpExp_spec {x : ℚ} (hx : 0 < x) :
    (2 : ℚ) ^ (ulpExp x + 52) ≤ x ∧ x < (2 : ℚ) ^ (ulpExp x + 53) := by
  unfold ulpExp
  rw [abs_of_pos hx]
  have h1 := Int.zpow_log_le_self (show 1 < 2 by norm_num) hx
  have h2 := Int.lt_zpow_succ_log_self (show 1 < 2 by norm_num) x
  constructor
  · have : Int.log 2 x - 52 + 52 = Int.log 2 x := by ring
    rw [this]
    exact_mod_cast h1
  · have : Int.log 2 x - 52 + 53 = Int.log 2 x + 1 := by ring
    rw [this]
    exact_mod_cast h2

theorem scaled_bounds {x : ℚ} (hx : 0 < x) :
    (2 : ℚ) ^ (52 : ℕ) ≤ x / 2 ^ ulpExp x ∧ x / 2 ^ ulpExp x < (2 : ℚ) ^ (53 : ℕ) := by
  obtain ⟨h1, h2⟩ := ulpExp_spec hx
  have hp : (0 : ℚ) < 2 ^ ulpExp x := zpow_pos (by norm_num) _
  rw [zpow_add₀ (by norm_num : (2 : ℚ) ≠ 0)] at h1 h2
  constructor
  · rw [le_div_iff₀ hp]
    calc (2 : ℚ) ^ (52 : ℕ) * 2 ^ ulpExp x = 2 ^ ulpExp x * 2 ^ (52 : ℤ) := by
          rw [mul_comm]; norm_cast
      _ ≤ x := h1
  · rw [div_lt_iff₀ hp]
    calc x < 2 ^ ulpExp x * 2 ^ (53 : ℤ) := h2
      _ = (2 : ℚ) ^ (53 : ℕ) * 2 ^ ulpExp x := by rw [mul_comm]; norm_cast

theorem f64_of_pos {x : ℚ} (hx : 0 < x) :
    f64 x = roundHalfEven (x / 2 ^ ulpExp x) * 2 ^ ulpExp x := by
  unfold f64
  rw [if_neg (ne_of_gt hx)]

theorem f64_eval {x : ℚ} (hx : 0 < x) (m e : ℤ) (h1 : (2 : ℚ) ^ (e + 52) ≤ x)
    (h2 : x < (2 : ℚ) ^ (e + 53)) (h3 : (m : ℚ) - 1 / 2 < x / 2 ^ e)
    (h4 : x / 2 ^ e < m + 1 / 2) : f64 x = m * 2 ^ e := by
  rw [f64_of_pos hx, ulpExp_eq hx e h1 h2, roundHalfEven_of_near _ m h3 h4]

theorem f64_nonneg {x : ℚ} (hx : 0 ≤ x) : 0 ≤ f64 x := by
  rcases eq_or_lt_of_le hx with h | h
  · rw [← h]; simp [f64]
  · rw [f64_of_pos h]
    have h0 : (0 : ℚ) ≤ x / 2 ^ ulpExp x := div_nonneg hx (zpow_nonneg (by norm_num) _)
    have h1 : roundHalfEven 0 ≤ roundHalfEven (x / 2 ^ ulpExp x) := roundHalfEven_mono h0
    have h2 : roundHalfEven 0 = 0 := by simpa using roundHalfEven_intCast 0
    rw [h2] at h1
    exact mul_nonneg (by exact_mod_cast h1) (zpow_nonneg (by norm_num) _)

theorem ulpExp_mono {x y : ℚ} (hx : 0 < x) (h : x ≤ y) : ulpExp x ≤ ulpExp y := by
  unfold ulpExp
  rw [abs_of_pos hx, abs_of_pos (lt_of_lt_of_le hx h)]
  have hlog : Int.log 2 x ≤ Int.log 2 y := Int.log_mono_right hx h
  omega

theorem f64_mono {x y : ℚ} (hx : 0 ≤ x) (h : x ≤ y) : f64 x ≤ f64 y := by
  rcases eq_or_lt_of_le hx with h0 | h0
  · rw [← h0]
    have : f64 0 = 0 := by simp [f64]
    rw [this]
    exact f64_nonneg (le_trans hx h)
  · have hy : 0 < y := lt_of_lt_of_le h0 h
    rw [f64_of_pos h0, f64_of_pos hy]
    rcases lt_or_eq_of_le (ulpExp_mono h0 h) with hlt | heq
    · obtain ⟨-, hxu⟩ := scaled_bounds h0
      obtain ⟨hyl, -⟩ := scaled_bounds hy
      have h1 : roundHalfEven (x / 2 ^ ulpExp x) ≤ 2 ^ (53 : ℕ) := by
        have := roundHalfEven_mono (le_of_lt hxu)
        have h53 : roundHalfEven ((2 : ℚ) ^ (53 : ℕ)) = 2 ^ (53 : ℕ) := by
          have := roundHalfEven_intCast (2 ^ (53 : ℕ))
          push_cast at this
          exact this
        rw [h53] at this
        exact this
      have h2 : (2 : ℤ) ^ (52 : ℕ) ≤ roundHalfEven (y / 2 ^ ulpExp y) := by
        have := roundHalfEven_mono hyl
        have h52 : roundHalfEven ((2 : ℚ) ^ (52 : ℕ)) = 2 ^ (52 : ℕ) := by
          have := roundHalfEven_intCast (2 ^ (52 : ℕ))
          push_cast at this
          exact this
        rw [h52] at this
        exact this
      have hpx : (0 : ℚ) < 2 ^ ulpExp x := zpow_pos (by norm_num) _
      have hpy : (0 : ℚ) < 2 ^ ulpExp y := zpow_pos (by norm_num) _
      have hstep : (2 : ℚ) ^ ulpExp x * 2 ≤ 2 ^ ulpExp y := by
        have : ulpExp x + 1 ≤ ulpExp y := hlt
        calc (2 : ℚ) ^ ulpExp x * 2 = 2 ^ (ulpExp x + 1) := by
              rw [zpow_add₀ (by norm_num : (2 : ℚ) ≠ 0)]; norm_num
          _ ≤ 2 ^ ulpExp y := zpow_le_zpow_right₀ (by norm_num) this
      calc (roundHalfEven (x / 2 ^ ulpExp x) : ℚ) * 2 ^ ulpExp x
          ≤ ((2 : ℤ) ^ (53 : ℕ) : ℤ) * 2 ^ ulpExp x :=
            mul_le_mul_of_nonneg_right (by exact_mod_cast h1) (le_of_lt hpx)
        _ = ((2 : ℤ) ^ (52 : ℕ) : ℤ) * (2 ^ ulpExp x * 2) := by push_cast; ring
        _ ≤ ((2 : ℤ) ^ (52 : ℕ) : ℤ) * 2 ^ ulpExp y :=
            mul_le_mul_of_nonneg_left hstep (by positivity)
        _ ≤ (roundHalfEven (y / 2 ^ ulpExp y) : ℚ) * 2 ^ ulpExp y :=
            mul_le_mul_of_nonneg_right (by exact_mod_cast h2) (le_of_lt hpy)
    · rw [heq]
      have hpy : (0 : ℚ) < 2 ^ ulpExp y := zpow_pos (by norm_num) _
      have : x / 2 ^ ulpExp y ≤ y / 2 ^ ulpExp y := div_le_div_of_nonneg_right h (le_of_lt hpy)
      have := roundHalfEven_mono this
      exact mul_le_mul_of_nonneg_right (by exact_mod_cast this) (le_of_lt hpy)


theorem f64_exact (a : ℕ) (e : ℤ) (ha : a < 2 ^ 53) : f64 ((a : ℚ) * 2 ^ e) = a * 2 ^ e := by
  rcases Nat.eq_zero_or_pos a with h0 | hpos
  · subst h0
    simp [f64]
  · have hlo : 2 ^ Nat.log 2 a ≤ a := Nat.pow_log_le_self 2 (by omega)
    have hhi : a < 2 ^ (Nat.log 2 a + 1) := Nat.lt_pow_succ_log_self (by norm_num) a
    have hL52 : Nat.log 2 a ≤ 52 := by
      by_contra hc
      push_neg at hc
      have : 2 ^ 53 ≤ 2 ^ Nat.log 2 a := Nat.pow_le_pow_right (by norm_num) hc
      omega
    obtain ⟨n, hn⟩ : ∃ n : ℕ, Nat.log 2 a + n = 52 := ⟨52 - Nat.log 2 a, by omega⟩
    have hpe : (0 : ℚ) < 2 ^ e := zpow_pos (by norm_num) _
    have hx : (0 : ℚ) < a * 2 ^ e := mul_pos (by exact_mod_cast hpos) hpe
    have hu : ulpExp ((a : ℚ) * 2 ^ e) = e - n := by
      apply ulpExp_eq hx
      · have he : e - n + 52 = (Nat.log 2 a : ℤ) + e := by omega
        rw [he, zpow_add₀ (by norm_num : (2 : ℚ) ≠ 0)]
        apply mul_le_mul_of_nonneg_right _ (le_of_lt hpe)
        rw [zpow_natCast]
        exact_mod_cast hlo
      · have he : e - n + 53 = ((Nat.log 2 a + 1 : ℕ) : ℤ) + e := by push_cast; omega
        rw [he, zpow_add₀ (by norm_num : (2 : ℚ) ≠ 0)]
        apply mul_lt_mul_of_pos_right _ hpe
        rw [zpow_natCast]
        exact_mod_cast hhi
    have hs : (a : ℚ) * 2 ^ e / 2 ^ (e - n) = ((a * 2 ^ n : ℕ) : ℤ) := by
      rw [zpow_sub₀ (by norm_num : (2 : ℚ) ≠ 0), zpow_natCast]
      field_simp
      ring
    rw [f64_of_pos hx, hu, hs, roundHalfEven_intCast, zpow_sub₀ (by norm_num : (2 : ℚ) ≠ 0),
      zpow_natCast]
    push_cast
    field_simp
    ring

theorem f64_natCast (a : ℕ) (ha : a < 2 ^ 53) : f64 (a : ℚ) = a := by
  have := f64_exact a 0 ha
  simpa using this


theorem f64_intCast (z : ℤ) (h0 : 0 ≤ z) (h1 : z < 2 ^ 53) : f64 (z : ℚ) = z := by
  obtain ⟨a, rfl⟩ := Int.eq_ofNat_of_zero_le h0
  have ha : a < 2 ^ 53 := by exact_mod_cast h1
  exact_mod_cast f64_natCast a ha

theorem Hour_eq : Hour = 3600000000000 := by decide

theorem hour_parts (d : ℤ) (h0 : 0 ≤ d) (hmax : d ≤ maxDuration) :
    0 ≤ d / Hour ∧ d / Hour < 2 ^ 53 ∧ 0 ≤ d % Hour ∧ d % Hour < 2 ^ 53 := by
  unfold maxDuration at hmax
  rw [Hour_eq]
  omega

theorem Hours_of_nonneg (d : ℤ) (h0 : 0 ≤ d) (hmax : d ≤ maxDuration) :
    Hours d = f64 (((d / Hour : ℤ) : ℚ) + f64 (((d % Hour : ℤ) : ℚ) / 3600000000000)) := by
  have hH : (0 : ℤ) ≤ Hour := by rw [Hour_eq]; norm_num
  obtain ⟨hq0, hq1, hr0, hr1⟩ := hour_parts d h0 hmax
  have hc : (60 * 60 * 1000000000 : ℚ) = ((3600000000000 : ℕ) : ℚ) := by norm_num
  unfold Hours
  simp only
  rw [Int.tdiv_eq_ediv h0 hH, Int.tmod_eq_emod h0 hH, f64_intCast _ hq0 hq1,
    f64_intCast _ hr0 hr1, hc, f64_natCast _ (by norm_num)]
  norm_num

theorem hours_split (d : ℤ) :
    (d : ℚ) / 3600000000000 = ((d / Hour : ℤ) : ℚ) + ((d % Hour : ℤ) : ℚ) / 3600000000000 := by
  have h := Int.ediv_add_emod d Hour
  have hq : ((Hour * (d / Hour) + d % Hour : ℤ) : ℚ) = (d : ℚ) := by rw [h]
  push_cast at hq
  rw [Hour_eq] at hq ⊢
  push_cast at hq ⊢
  rw [← hq]
  field_simp
  ring

/-- A binary64 bound on the exact number of hours also bounds `Hours`. -/
theorem Hours_le_dyadic (d : ℤ) (h0 : 0 ≤ d) (hmax : d ≤ maxDuration) (c j : ℕ)
    (hc : c < 2 ^ 53) (hb : (d : ℚ) / 3600000000000 ≤ c / 2 ^ j) : Hours d ≤ c / 2 ^ j := by
  have hr0 : 0 ≤ d % Hour := Int.emod_nonneg _ (by rw [Hour_eq]; norm_num)
  have hq0 : 0 ≤ d / Hour := Int.ediv_nonneg h0 (by rw [Hour_eq]; norm_num)
  obtain ⟨q, hq⟩ := Int.eq_ofNat_of_zero_le hq0
  have hfrac0 : (0 : ℚ) ≤ ((d % Hour : ℤ) : ℚ) / 3600000000000 :=
    div_nonneg (by exact_mod_cast hr0) (by norm_num)
  have hp : (0 : ℚ) < 2 ^ j := by positivity
  rw [hours_split d, hq] at hb
  -- the whole hours fit below the bound
  have hqc : q * 2 ^ j ≤ c := by
    have h1 : ((q : ℤ) : ℚ) ≤ c / 2 ^ j := by linarith
    rw [le_div_iff₀ hp] at h1
    exact_mod_cast h1
  obtain ⟨c', hc'⟩ : ∃ c' : ℕ, c = q * 2 ^ j + c' := ⟨c - q * 2 ^ j, by omega⟩
  have hcq : (c : ℚ) / 2 ^ j = ((q : ℤ) : ℚ) + c' / 2 ^ j := by
    rw [hc']
    push_cast
    field_simp
  have hexact : ∀ a : ℕ, a < 2 ^ 53 → f64 ((a : ℚ) / 2 ^ j) = a / 2 ^ j := by
    intro a ha
    have := f64_exact a (-(j : ℤ)) ha
    rw [zpow_neg, zpow_natCast, ← div_eq_mul_inv] at this
    exact this
  have hin : f64 (((d % Hour : ℤ) : ℚ) / 3600000000000) ≤ c' / 2 ^ j := by
    rw [← hexact c' (by omega)]
    apply f64_mono hfrac0
    rw [hcq] at hb
    linarith
  rw [Hours_of_nonneg d h0 hmax, hq, ← hexact c hc]
  apply f64_mono
  · exact add_nonneg (Int.cast_nonneg.2 (Int.natCast_nonneg q)) (f64_nonneg hfrac0)
  · rw [hcq]
    linarith

theorem Hours_ge_hour (d : ℤ) (h0 : 0 ≤ d) (hmax : d ≤ maxDuration) :
    ((d / Hour : ℤ) : ℚ) ≤ Hours d := by
  obtain ⟨hq0, hq1, hr0, -⟩ := hour_parts d h0 hmax
  have hfrac0 : (0 : ℚ) ≤ ((d % Hour : ℤ) : ℚ) / 3600000000000 :=
    div_nonneg (by exact_mod_cast hr0) (by norm_num)
  rw [Hours_of_nonneg d h0 hmax]
  calc ((d / Hour : ℤ) : ℚ) = f64 ((d / Hour : ℤ) : ℚ) := (f64_intCast _ hq0 hq1).symm
    _ ≤ _ := f64_mono (by exact_mod_cast hq0) (by linarith [f64_nonneg hfrac0])


theorem f64_24 : f64 24 = 24 := by
  have := f64_natCast 24 (by norm_num)
  exact_mod_cast this

theorem Hours_nonneg (d : ℤ) (h0 : 0 ≤ d) (hmax : d ≤ maxDuration) : 0 ≤ Hours d :=
  le_trans (Int.cast_nonneg.2 (hour_parts d h0 hmax).1) (Hours_ge_hour d h0 hmax)

theorem toInt_of_nonneg {x : ℚ} (hx : 0 ≤ x) : toInt x = ⌊x⌋ := by
  unfold toInt
  rw [if_pos hx]

theorem quot_nonneg (d : ℤ) (h0 : 0 ≤ d) (hmax : d ≤ maxDuration) :
    0 ≤ f64 (Hours d / f64 24) := by
  rw [f64_24]
  exact f64_nonneg (div_nonneg (Hours_nonneg d h0 hmax) (by norm_num))

/-- Whole days below the whole hours are counted. -/
theorem quot_lower (d : ℤ) (h0 : 0 ≤ d) (hmax : d ≤ maxDuration) (k : ℕ)
    (hk : (24 * k : ℤ) ≤ d / Hour) : (k : ℤ) ≤ toInt (f64 (Hours d / f64 24)) := by
  have hk53 : k < 2 ^ 53 := by
    have := (hour_parts d h0 hmax).2.1
    omega
  have hH : ((24 * k : ℤ) : ℚ) ≤ Hours d :=
    le_trans (by exact_mod_cast hk) (Hours_ge_hour d h0 hmax)
  push_cast at hH
  have hq : (k : ℚ) ≤ f64 (Hours d / f64 24) := by
    rw [f64_24, ← f64_natCast k hk53]
    apply f64_mono (by positivity)
    rw [le_div_iff₀ (by norm_num)]
    linarith
  rw [toInt_of_nonneg (quot_nonneg d h0 hmax)]
  exact Int.le_floor.2 (by exact_mod_cast hq)

/-- A duration of at most `24 K` hours is counted as at most `K` days. -/
theorem quot_upper (d : ℤ) (h0 : 0 ≤ d) (hmax : d ≤ maxDuration) (K : ℕ) (hK : 24 * K < 2 ^ 53)
    (hb : (d : ℚ) / 3600000000000 ≤ 24 * K) : toInt (f64 (Hours d / f64 24)) ≤ K := by
  have hH : Hours d ≤ ((24 * K : ℕ) : ℚ) / 2 ^ 0 :=
    Hours_le_dyadic d h0 hmax (24 * K) 0 hK (by push_cast; simpa using hb)
  push_cast at hH
  have hq : f64 (Hours d / f64 24) ≤ (K : ℚ) := by
    rw [f64_24, ← f64_natCast K (by omega)]
    apply f64_mono (div_nonneg (Hours_nonneg d h0 hmax) (by norm_num))
    rw [div_le_iff₀ (by norm_num)]
    simp only [pow_zero, div_one] at hH
    linarith
  rw [toInt_of_nonneg (quot_nonneg d h0 hmax)]
  have : (⌊f64 (Hours d / f64 24)⌋ : ℚ) ≤ K := le_trans (Int.floor_le _) hq
  exact_mod_cast this

/-- A duration that stays `2^-j` hours short of `24 K` hours is counted as fewer than `K` days. -/
theorem quot_upper_strict (d : ℤ) (h0 : 0 ≤ d) (hmax : d ≤ maxDuration) (K j : ℕ) (hK1 : 1 ≤ K)
    (hK : K * 2 ^ (j + 5) ≤ 2 ^ 53)
    (hb : (d : ℚ) / 3600000000000 ≤ 24 * K - 1 / 2 ^ j) :
    toInt (f64 (Hours d / f64 24)) < K := by
  have hj : 0 < 2 ^ j := Nat.pow_pos (by norm_num)
  have hpj : (0 : ℚ) < 2 ^ j := by positivity
  have h32 : K * 2 ^ (j + 5) = 32 * (K * 2 ^ j) := by ring
  obtain ⟨c, hc⟩ : ∃ c : ℕ, 24 * (K * 2 ^ j) = c + 1 := ⟨24 * (K * 2 ^ j) - 1, by
    have : 1 ≤ K * 2 ^ j := Nat.one_le_iff_ne_zero.2 (by positivity)
    omega⟩
  obtain ⟨c2, hc2⟩ : ∃ c2 : ℕ, K * 2 ^ (j + 5) = c2 + 1 := ⟨K * 2 ^ (j + 5) - 1, by
    have : 1 ≤ K * 2 ^ (j + 5) := Nat.one_le_iff_ne_zero.2 (by positivity)
    omega⟩
  have hcq : (c : ℚ) / 2 ^ j = 24 * K - 1 / 2 ^ j := by
    have : (c : ℚ) = 24 * (K * 2 ^ j) - 1 := by
      have := congrArg (fun n : ℕ => (n : ℚ)) hc
      push_cast at this
      linarith
    rw [this]
    field_simp
    ring
  have hc2q : (c2 : ℚ) / 2 ^ (j + 5) = K - 1 / 2 ^ (j + 5) := by
    have : (c2 : ℚ) = K * 2 ^ (j + 5) - 1 := by
      have := congrArg (fun n : ℕ => (n : ℚ)) hc2
      push_cast at this
      linarith
    rw [this]
    field_simp
  have hH : Hours d ≤ (c : ℚ) / 2 ^ j :=
    Hours_le_dyadic d h0 hmax c j (by omega) (by rw [hcq]; exact hb)
  have hexact : f64 ((c2 : ℚ) / 2 ^ (j + 5)) = c2 / 2 ^ (j + 5) := by
    have := f64_exact c2 (-((j + 5 : ℕ) : ℤ)) (by omega)
    rw [zpow_neg, zpow_natCast, ← div_eq_mul_inv] at this
    exact this
  have hq : f64 (Hours d / f64 24) ≤ (K : ℚ) - 1 / 2 ^ (j + 5) := by
    rw [f64_24, ← hc2q, ← hexact]
    apply f64_mono (div_nonneg (Hours_nonneg d h0 hmax) (by norm_num))
    rw [div_le_iff₀ (by norm_num), hc2q]
    rw [hcq] at hH
    have h5 : (1 : ℚ) / 2 ^ (j + 5) * 24 ≤ 1 / 2 ^ j := by
      rw [pow_add]
      field_simp
      rw [div_le_iff₀ (by positivity)]
      norm_num
    linarith
  rw [toInt_of_nonneg (quot_nonneg d h0 hmax)]
  have hpos : (0 : ℚ) < 1 / 2 ^ (j + 5) := by positivity
  have : (⌊f64 (Hours d / f64 24)⌋ : ℚ) < K := by
    have := Int.floor_le (f64 (Hours d / f64 24))
    linarith
  exact_mod_cast this


/-- One nanosecond before the end of the 200th day, `Hours` is rounded up to 4800. -/
theorem Hours_before_day_200 : Hours 17279999999999999 = 4800 := by
  have hq : (17279999999999999 : ℤ) / Hour = 4799 := by rw [Hour_eq]; norm_num
  have hr : (17279999999999999 : ℤ) % Hour = 3599999999999 := by rw [Hour_eq]; norm_num
  have hin : f64 (((3599999999999 : ℤ) : ℚ) / 3600000000000)
      = (9007199254738490 : ℤ) * 2 ^ (-53 : ℤ) :=
    f64_eval (by norm_num) 9007199254738490 (-53) (by norm_num) (by norm_num) (by norm_num)
      (by norm_num)
  have hout : f64 (((4799 : ℤ) : ℚ) + (9007199254738490 : ℤ) * 2 ^ (-53 : ℤ))
      = (5277655813324800 : ℤ) * 2 ^ (-40 : ℤ) :=
    f64_eval (by norm_num) 5277655813324800 (-40) (by norm_num) (by norm_num) (by norm_num)
      (by norm_num)
  rw [Hours_of_nonneg _ (by norm_num) (by unfold maxDuration; norm_num), hq, hr, hin, hout]
  norm_num

theorem quot_before_day_200 : toInt (f64 (Hours 17279999999999999 / f64 24)) = 200 := by
  rw [Hours_before_day_200, f64_24]
  have h : (4800 : ℚ) / 24 = ((200 : ℕ) : ℚ) := by norm_num
  rw [h, f64_natCast 200 (by norm_num), toInt_of_nonneg (by norm_num)]
  exact Int.floor_natCast 200

/-! ### The day number -/

theorem Since_eq (env : Env) (h0 : epoch ≤ env.now) (hmax : env.now - epoch ≤ maxDuration) :
    Since env epoch = env.now - epoch := by
  unfold Since Sub
  simp only
  rw [if_neg (by omega), if_neg (by unfold minDuration; omega)]

theorem days_bounds (d : ℤ) (h0 : 0 ≤ d) (hmax : d ≤ maxDuration) :
    d / (24 * Hour) ≤ toInt (f64 (Hours d / f64 24)) ∧
    toInt (f64 (Hours d / f64 24)) ≤ d / (24 * Hour) + 1 := by
  have hk0 : 0 ≤ d / (24 * Hour) := Int.ediv_nonneg h0 (by rw [Hour_eq]; norm_num)
  obtain ⟨k, hk⟩ := Int.eq_ofNat_of_zero_le hk0
  have hmax2 := hmax
  unfold maxDuration at hmax2
  rw [hk]
  constructor
  · apply quot_lower d h0 hmax k
    rw [Hour_eq] at hk ⊢
    omega
  · have hlt : d < 24 * 3600000000000 * ((k : ℤ) + 1) := by
      rw [Hour_eq] at hk
      omega
    have := quot_upper d h0 hmax (k + 1) (by rw [Hour_eq] at hk; omega) (by
      rw [div_le_iff₀ (by norm_num)]
      have hc : (d : ℚ) ≤ ((24 * 3600000000000 * ((k : ℤ) + 1) : ℤ) : ℚ) :=
        Int.cast_le.2 (le_of_lt hlt)
      push_cast at hc ⊢
      linarith)
    push_cast at this
    exact this

theorem days_exact (d : ℤ) (h0 : 0 ≤ d) (hmax : d ≤ maxDuration)
    (hfar : d % (24 * Hour) + 2000 ≤ 24 * Hour) :
    toInt (f64 (Hours d / f64 24)) = d / (24 * Hour) := by
  have hk0 : 0 ≤ d / (24 * Hour) := Int.ediv_nonneg h0 (by rw [Hour_eq]; norm_num)
  obtain ⟨k, hk⟩ := Int.eq_ofNat_of_zero_le hk0
  have hmax2 := hmax
  unfold maxDuration at hmax2
  have hlow := (days_bounds d h0 hmax).1
  rw [hk] at hlow ⊢
  have hle : d + 2000 ≤ 24 * 3600000000000 * ((k : ℤ) + 1) := by
    rw [Hour_eq] at hk hfar
    omega
  have hup := quot_upper_strict d h0 hmax (k + 1) 31 (by omega) (by rw [Hour_eq] at hk; omega) (by
    have hc : ((d + 2000 : ℤ) : ℚ) ≤ ((24 * 3600000000000 * ((k : ℤ) + 1) : ℤ) : ℚ) :=
      Int.cast_le.2 hle
    push_cast at hc ⊢
    rw [div_le_iff₀ (by norm_num)]
    have h31 : (1 : ℚ) / 2 ^ 31 * 3600000000000 ≤ 2000 := by norm_num
    linarith)
  push_cast at hup
  omega

theorem days_first (d : ℤ) (h0 : 0 ≤ d) (hlt : d < 24 * Hour) :
    toInt (f64 (Hours d / f64 24)) = 0 := by
  have hmax : d ≤ maxDuration := by
    unfold maxDuration
    rw [Hour_eq] at hlt
    omega
  have hlow := quot_lower d h0 hmax 0 (by
    have := (hour_parts d h0 hmax).1
    simpa using this)
  have hup := quot_upper_strict d h0 hmax 1 42 (by norm_num) (by norm_num) (by
    have hle : d + 1 ≤ 24 * 3600000000000 := by
      rw [Hour_eq] at hlt
      omega
    have hc : ((d + 1 : ℤ) : ℚ) ≤ ((24 * 3600000000000 : ℤ) : ℚ) := Int.cast_le.2 hle
    push_cast at hc ⊢
    rw [div_le_iff₀ (by norm_num)]
    have h42 : (1 : ℚ) / 2 ^ 42 * 3600000000000 ≤ 1 := by norm_num
    linarith)
  push_cast at hlow hup
  omega

/-- C4, amended: the status is "DAY n" with `n = int(time.Since(epoch).Hours()/24)+1` computed in
float64.  For a clock at or after the epoch 2025-04-11 00:00:00 UTC and at most the largest
`Duration` after it, `n` is the number of whole 24 hour periods elapsed plus 1, or that plus 2;
it is the former whenever the clock is at least 2000 ns short of the next multiple of 24 hours,
the status is "DAY 1" throughout the first 24 hours, and from a clock that is at least 2000 ns
short of the next multiple of 24 hours an advance of 24 hours raises `n` by exactly 1. -/
theorem dayNumber_counts_days (env : Env) (h0 : epoch ≤ env.now)
    (hmax : env.now - epoch ≤ maxDuration) :
    statusText env = ascii ("DAY " ++ toString (dayNumber env)) ∧
    (env.now - epoch) / (24 * Hour) + 1 ≤ dayNumber env ∧
    dayNumber env ≤ (env.now - epoch) / (24 * Hour) + 2 ∧
    ((env.now - epoch) % (24 * Hour) + 2000 ≤ 24 * Hour →
      dayNumber env = (env.now - epoch) / (24 * Hour) + 1) ∧
    (env.now - epoch < 24 * Hour → statusText env = ascii "DAY 1") ∧
    (∀ later : Env, later.now = env.now + 24 * Hour → later.now - epoch ≤ maxDuration →
      (env.now - epoch) % (24 * Hour) + 2000 ≤ 24 * Hour →
      dayNumber later = dayNumber env + 1) := by
  have hd0 : 0 ≤ env.now - epoch := by omega
  have hS := Since_eq env h0 hmax
  have hb := days_bounds (env.now - epoch) hd0 hmax
  have hexact : (env.now - epoch) % (24 * Hour) + 2000 ≤ 24 * Hour →
      dayNumber env = (env.now - epoch) / (24 * Hour) + 1 := by
    intro hfar
    unfold dayNumber
    rw [hS, days_exact (env.now - epoch) hd0 hmax hfar]
  refine ⟨rfl, ?_, ?_, hexact, ?_, ?_⟩
  · unfold dayNumber
    rw [hS]
    omega
  · unfold dayNumber
    rw [hS]
    omega
  · intro hlt
    have h1 : dayNumber env = 1 := by
      unfold dayNumber
      rw [hS, days_first (env.now - epoch) hd0 hlt]
      rfl
    unfold statusText
    rw [h1]
    rfl
  · intro later hnow hmax2 hfar
    have hl0 : epoch ≤ later.now := by
      rw [hnow, Hour_eq]
      omega
    have hfar2 : (later.now - epoch) % (24 * Hour) + 2000 ≤ 24 * Hour := by
      have he : later.now - epoch = (env.now - epoch) + 24 * Hour := by rw [hnow]; ring
      rw [he, Int.add_emod_self]
      exact hfar
    have hdiv : (later.now - epoch) / (24 * Hour) = (env.now - epoch) / (24 * Hour) + 1 := by
      have he : later.now - epoch = (env.now - epoch) + 24 * Hour := by rw [hnow]; ring
      rw [he, Int.add_ediv_of_dvd_right (dvd_refl _),
        Int.ediv_self (by rw [Hour_eq]; norm_num)]
    have hl : dayNumber later = (later.now - epoch) / (24 * Hour) + 1 := by
      unfold dayNumber
      rw [Since_eq later hl0 hmax2, days_exact (later.now - epoch) (by omega) hmax2 hfar2]
    rw [hl, hexact hfar, hdiv]

/-- C4, amended, at the sample clock: noon of the 573rd day gives "DAY 573". -/
theorem dayNumber_counts_days_witness :
    epoch ≤ sampleEnv.now ∧ sampleEnv.now - epoch ≤ maxDuration ∧
    dayNumber sampleEnv = (sampleEnv.now - epoch) / (24 * Hour) + 1 ∧
    (sampleEnv.now - epoch) / (24 * Hour) + 1 = 573 :=
  ⟨by decide, by decide,
    (dayNumber_counts_days sampleEnv (by decide) (by decide)).2.2.2.1 (by decide), by decide⟩

/-- C4 as stated fails: one nanosecond before the end of the 200th day (199 whole days and
23:59:59.999999999 after the epoch) the float64 value of `Hours()` is rounded up to 4800, and
the status is "DAY 201", while the whole 24 hour periods elapsed plus 1 is 200. -/
theorem dayNumber_rounds_up_before_boundary :
    epoch ≤ boundaryEnv.now ∧
    boundaryEnv.now - epoch = 200 * (24 * Hour) - 1 ∧
    (boundaryEnv.now - epoch) / (24 * Hour) + 1 = 200 ∧
    dayNumber boundaryEnv = 201 ∧
    statusText boundaryEnv = ascii "DAY 201" := by
  have hS : Since boundaryEnv epoch = 17279999999999999 := by decide
  have hn : dayNumber boundaryEnv = 201 := by
    unfold dayNumber
    rw [hS, quot_before_day_200]
    rfl
  refine ⟨by decide, by decide, by decide, hn, ?_⟩
  unfold statusText
  rw [hn]
  decide

end YuzuWatch
